import Mathlib

/-!
# requestr: a verification development

A shallow embedding of the Go package `requestr` (`requests.go`, `init.go`,
`logging.go`) together with theorems about the request it builds, the
response it returns and the ways it terminates.

Conventions of the embedding.

* A Go `string` and a Go `[]byte` are both finite byte sequences.  They are
  modelled by `String`, read one character per byte (the byte `b` is the
  character with code point `b`); every ASCII literal of the source is
  therefore itself.
* A Go `map` is modelled by the list of its entries in the order in which a
  `range` loop visits them.  Theorems are stated for every such order.
* A pointer that may be `nil` is an `Option`.
* `log.Fatalln` ends the process; it is the abort `Abort.fatal`, which keeps
  the operands that were passed to it.  A nil pointer dereference ends the
  process with a runtime error; it is the abort `Abort.nilDereference`.
* Everything the package obtains from outside (the remaining stages of the
  URL parser, the random source, the file system, the HTTP client) is a field
  of `Env`.
-/

namespace Requestr

/-! ## Strings -/

/-- Go `strings.HasPrefix`. -/
def HasPrefix (s p : String) : Bool := p.data.isPrefixOf s.data

/-- Go slice expression `s[1:]` on a non-empty string. -/
def sliceFrom1 (s : String) : String := ⟨s.data.drop 1⟩

/-- Go `strings.ContainsAny`. -/
def ContainsAny (s chars : String) : Bool := s.data.any (fun c => chars.data.contains c)

/-- Go `strings.Join`: nothing for no element, the element itself for one,
and otherwise the first element followed by each further one behind a
separator. -/
def Join : List String → String → String
  | [], _ => ""
  | [e], _ => e
  | e :: rest, sep => rest.foldl (fun b s => b ++ sep ++ s) e

/-- The byte a character stands for. -/
def byteOf (c : Char) : Nat := c.toNat % 256

/-- Lower-case hexadecimal digit, as printed by the verb `%x`. -/
def lowerHex (n : Nat) : Char := "0123456789abcdef".data.getD (n % 16) '0'

/-- Upper-case hexadecimal digit, as used by URL escaping. -/
def upperHex (n : Nat) : Char := "0123456789ABCDEF".data.getD (n % 16) '0'

/-- Go `fmt.Sprintf("%x", buf)` for a byte slice. -/
def sprintfHex (buf : List Nat) : String :=
  ⟨buf.flatMap (fun b => [lowerHex ((b % 256) / 16), lowerHex (b % 16)])⟩

/-! ## `net/textproto` and `net/http` headers -/

/-- Go `textproto.validHeaderFieldByte`: the token characters of RFC 7230. -/
def validHeaderFieldByte (c : Char) : Bool :=
  c.isAlphanum || "!#$%&*+-.^_|~".data.contains c || c == Char.ofNat 39 || c == Char.ofNat 96

/-- The rewriting loop of Go `textproto.canonicalMIMEHeaderKey`: upper case at
the start and after each dash, lower case elsewhere. -/
def canonicalLoop : Bool → List Char → List Char
  | _, [] => []
  | upper, c :: cs =>
    let d := if upper && c.isLower then c.toUpper
             else if !upper && c.isUpper then c.toLower else c
    d :: canonicalLoop (d == '-') cs

/-- Go `textproto.CanonicalMIMEHeaderKey` (which `http.Header` uses for
every key): a key holding a byte that is not a token character is returned
unchanged. -/
def CanonicalMIMEHeaderKey (s : String) : String :=
  if s.data.all validHeaderFieldByte then ⟨canonicalLoop true s.data⟩ else s

/-- Go `http.Header`, a `map[string][]string`. -/
abbrev Header := List (String × List String)

/-- Go map index expression `m[k]` with an `Option` for the missing key. -/
def mapGet {β : Type} : List (String × β) → String → Option β
  | [], _ => none
  | (k, v) :: rest, key => if k = key then some v else mapGet rest key

/-- Go map assignment `m[k] = v`. -/
def mapSet {β : Type} : List (String × β) → String → β → List (String × β)
  | [], key, v => [(key, v)]
  | (k, w) :: rest, key, v => if k = key then (k, v) :: rest else (k, w) :: mapSet rest key v

/-- Go `http.Header.Values`. -/
def Header.Values (h : Header) (key : String) : List String :=
  (mapGet h (CanonicalMIMEHeaderKey key)).getD []

/-- Go `http.Header.Get`. -/
def Header.Get (h : Header) (key : String) : String :=
  (h.Values key).headD ""

/-- Go `http.Header.Add`. -/
def Header.Add (h : Header) (key value : String) : Header :=
  let k := CanonicalMIMEHeaderKey key
  mapSet h k ((mapGet h k).getD [] ++ [value])

/-- Go `http.Header.Set`. -/
def Header.Set (h : Header) (key value : String) : Header :=
  mapSet h (CanonicalMIMEHeaderKey key) [value]

/-! ## `encoding/base64` and basic authentication -/

/-- The alphabet of Go `base64.StdEncoding`. -/
def base64Digit (n : Nat) : Char :=
  "ABCDEFGHIJKLMNOPQRSTUVWXYZabcdefghijklmnopqrstuvwxyz0123456789+/".data.getD (n % 64) 'A'

/-- Go `base64.StdEncoding.EncodeToString`. -/
def base64Encode : List Nat → List Char
  | [] => []
  | [a] =>
    let n := a * 65536
    [base64Digit (n / 262144), base64Digit (n / 4096), '=', '=']
  | [a, b] =>
    let n := a * 65536 + b * 256
    [base64Digit (n / 262144), base64Digit (n / 4096), base64Digit (n / 64), '=']
  | a :: b :: c :: rest =>
    let n := a * 65536 + b * 256 + c
    base64Digit (n / 262144) :: base64Digit (n / 4096) :: base64Digit (n / 64)
      :: base64Digit n :: base64Encode rest

/-- Go `http.basicAuth`. -/
def basicAuth (username password : String) : String :=
  ⟨base64Encode ((username ++ ":" ++ password).data.map byteOf)⟩

/-- The value of a digit of the alphabet of Go `base64.StdEncoding`. -/
def base64Value (c : Char) : Nat :=
  "ABCDEFGHIJKLMNOPQRSTUVWXYZabcdefghijklmnopqrstuvwxyz0123456789+/".data.indexOf c

/-- Go `base64.StdEncoding.DecodeString` on padded groups of four digits:
three bytes from a full group, two or one from a final group with padding. -/
def base64Decode : List Char → List Nat
  | a :: b :: c :: d :: rest =>
    let x := base64Value a
    let y := base64Value b
    let z := base64Value c
    let u := base64Value d
    if c = '=' then [(x * 4 + y / 16) % 256]
    else if d = '=' then [(x * 4 + y / 16) % 256, ((y % 16) * 16 + z / 4) % 256]
    else (x * 4 + y / 16) % 256 :: ((y % 16) * 16 + z / 4) % 256 :: ((z % 4) * 64 + u) % 256
      :: base64Decode rest
  | _ => []

/-! ## `net/url` -/

/-- Go `url.stringContainsCTLByte`. -/
def stringContainsCTLByte (s : String) : Bool :=
  s.data.any (fun c => byteOf c < 32 || byteOf c == 127)

/-- Go `url.shouldEscape` in the mode `encodeQueryComponent`. -/
def shouldEscape (c : Char) : Bool :=
  !(c.isAlphanum || c == '-' || c == '_' || c == '.' || c == '~')

/-- Go `url.QueryEscape`. -/
def QueryEscape (s : String) : String :=
  ⟨s.data.flatMap (fun c =>
    if c == ' ' then ['+']
    else if shouldEscape c then ['%', upperHex (byteOf c / 16), upperHex (byteOf c)]
    else [c])⟩

/-- Go string comparison `a <= b`: byte-wise lexicographic order. -/
def bytesLE : List Char → List Char → Bool
  | [], _ => true
  | _ :: _, [] => false
  | a :: as, b :: bs =>
    if a.toNat < b.toNat then true
    else if b.toNat < a.toNat then false
    else bytesLE as bs

/-- Go `url.Values`, a `map[string][]string`. -/
abbrev Values := List (String × List String)

/-- Go `url.Values.Encode`: the keys in sorted order, each value as
`key=value`, the pairs separated by `&`. -/
def Values.Encode (v : Values) : String :=
  let keys := (v.map Prod.fst).insertionSort (fun a b => bytesLE a.data b.data = true)
  let pairs := keys.flatMap (fun k =>
    ((mapGet v k).getD []).map (fun x => QueryEscape k ++ "=" ++ QueryEscape x))
  "&".intercalate pairs

/-! ## The environment -/

/-- Go `http.Request`, as far as the package touches it.  A request without a
body has the empty body. -/
structure Request where
  Method : String
  URL : String
  Header : Header
  Body : String
deriving DecidableEq, Repr

/-- Go `http.Response`, as far as the package reads it.  `Body` is what
`io.ReadAll(resp.Body)` returns: the bytes, or a read error. -/
structure HttpResponse where
  StatusCode : Int
  ContentLength : Int
  Header : List (String × List String)
  Body : Except String String

/-- An opened `os.File`: the bytes that can be read from it and the error,
if any, that ends the reading (a directory opens but cannot be read). -/
structure File where
  content : String
  readErr : Option String

/-- Go `http.Cookie`, as far as `Request.AddCookie` reads it. -/
structure Cookie where
  Name : String
  Value : String
deriving DecidableEq, Repr

/-- What the package obtains from outside. -/
structure Env where
  /-- The stages of `url.Parse` behind its control-byte check: the error, if
  the raw URL is rejected. -/
  parseURL : String → Option String
  /-- The bytes read from `crypto/rand`. -/
  randomBytes : Nat → Nat
  /-- The file system behind `os.Open`. -/
  openFile : String → Except String File
  /-- Go `http.sanitizeCookieName`. -/
  sanitizeCookieName : String → String
  /-- Go `http.sanitizeCookieValue`. -/
  sanitizeCookieValue : String → String
  /-- The shared `Client`: what `Client.Do` answers to a request. -/
  clientDo : Request → Except String HttpResponse
  /-- The environment variable `HTTP_PROXY`. -/
  HTTP_PROXY : String

/-- Go `url.Parse`, up to the value of the parsed URL: the error it returns.
A raw URL with an ASCII control byte is rejected before anything else. -/
def urlParse (env : Env) (rawURL : String) : Option String :=
  if stringContainsCTLByte rawURL then some "net/url: invalid control character in URL"
  else env.parseURL rawURL

/-- Go `os.Open`: the empty path names no file. -/
def osOpen (env : Env) (name : String) : Except String File :=
  if name = "" then .error "open : no such file or directory" else env.openFile name

/-- Go `http.MethodGet`. -/
def MethodGet : String := "GET"

/-- Go `http.MethodPost`. -/
def MethodPost : String := "POST"

/-- Go `http.MethodDelete`. -/
def MethodDelete : String := "DELETE"

/-- Go `http.NewRequest` for one of the three methods above (each a valid
method): `(nil, err)` when the URL does not parse, and otherwise a request
with an empty header and the given body. -/
def NewRequest (env : Env) (method url : String) (body : Option String) :
    Option Request × Option String :=
  match urlParse env url with
  | some err => (none, some err)
  | none => (some { Method := method, URL := url, Header := [], Body := body.getD "" }, none)

/-- Go `Request.SetBasicAuth`. -/
def Request.SetBasicAuth (r : Request) (username password : String) : Request :=
  { r with Header := r.Header.Set "Authorization" ("Basic " ++ basicAuth username password) }

/-- Go `Request.AddCookie`. -/
def Request.AddCookie (env : Env) (r : Request) (c : Cookie) : Request :=
  let s := env.sanitizeCookieName c.Name ++ "=" ++ env.sanitizeCookieValue c.Value
  let old := r.Header.Get "Cookie"
  if old ≠ "" then { r with Header := r.Header.Set "Cookie" (old ++ "; " ++ s) }
  else { r with Header := r.Header.Set "Cookie" s }

/-! ## `mime/multipart` -/

/-- Go `multipart.Writer`: `w` is the content of the buffer it writes to,
`lastpart` tells whether a part has been created. -/
structure Writer where
  w : String
  boundary : String
  lastpart : Bool
deriving DecidableEq, Repr

/-- Go `multipart.randomBoundary`: thirty random bytes in hexadecimal. -/
def randomBoundary (env : Env) : String :=
  sprintfHex ((List.range 30).map env.randomBytes)

/-- Go `multipart.NewWriter` on an empty buffer. -/
def NewWriter (env : Env) : Writer :=
  { w := "", boundary := randomBoundary env, lastpart := false }

/-- A double quote. -/
def dquote : String := String.singleton (Char.ofNat 34)

/-- A backslash. -/
def backslash : String := String.singleton (Char.ofNat 92)

/-- Go `multipart.escapeQuotes`: a backslash before every backslash and
every double quote. -/
def escapeQuotes (s : String) : String :=
  ⟨s.data.flatMap (fun c =>
    if c == Char.ofNat 92 || c == Char.ofNat 34 then [Char.ofNat 92, c] else [c])⟩

/-- Go `Writer.CreatePart`, given the header lines in the sorted order of
their keys: the delimiter, the header lines and an empty line go to the
buffer.  Writing to a `bytes.Buffer` returns no error. -/
def Writer.CreatePart (w : Writer) (header : List (String × String)) : Writer :=
  let delim := if w.lastpart then "\r\n--" ++ w.boundary ++ "\r\n"
               else "--" ++ w.boundary ++ "\r\n"
  let lines := header.foldl (fun b kv => b ++ kv.1 ++ ": " ++ kv.2 ++ "\r\n") ""
  { w with w := w.w ++ (delim ++ lines ++ "\r\n"), lastpart := true }

/-- Go `Writer.CreateFormFile`. -/
def Writer.CreateFormFile (w : Writer) (fieldname filename : String) : Writer :=
  w.CreatePart
    [("Content-Disposition",
      "form-data; name=" ++ dquote ++ escapeQuotes fieldname ++ dquote ++
        "; filename=" ++ dquote ++ escapeQuotes filename ++ dquote),
     ("Content-Type", "application/octet-stream")]

/-- Go `Writer.CreateFormField`. -/
def Writer.CreateFormField (w : Writer) (fieldname : String) : Writer :=
  w.CreatePart
    [("Content-Disposition", "form-data; name=" ++ dquote ++ escapeQuotes fieldname ++ dquote)]

/-- Go `part.Write` on the part created last. -/
def Writer.partWrite (w : Writer) (p : String) : Writer :=
  { w with w := w.w ++ p }

/-- Go `Writer.WriteField`. -/
def Writer.WriteField (w : Writer) (fieldname value : String) : Writer :=
  (w.CreateFormField fieldname).partWrite value

/-- Go `Writer.Close`: the closing delimiter. -/
def Writer.Close (w : Writer) : Writer :=
  { w with w := w.w ++ ("\r\n--" ++ w.boundary ++ "--\r\n"), lastpart := false }

/-- Go `Writer.FormDataContentType`: the boundary is quoted when it holds a
special character. -/
def Writer.FormDataContentType (w : Writer) : String :=
  let b := if ContainsAny w.boundary ("()<>@,;:" ++ backslash ++ dquote ++ "/[]?= ")
           then dquote ++ w.boundary ++ dquote else w.boundary
  "multipart/form-data; boundary=" ++ b

/-- Go `io.Copy(part, file)`: the bytes read go to the part, the read error
is returned. -/
def ioCopy (w : Writer) (file : File) : Writer × Option String :=
  (w.partWrite file.content, file.readErr)

/-! ## Termination and output -/

/-- The two ways in which a call ends the process instead of returning. -/
inductive Abort where
  /-- Go `log.Fatalln` with these operands. -/
  | fatal (operands : List String)
  /-- The runtime error of dereferencing a nil pointer. -/
  | nilDereference
deriving DecidableEq, Repr

/-- One piece of output. -/
inductive Output where
  /-- A line written by `log.Println`. -/
  | log (line : String)
  /-- Text written to standard output by `fmt.Println` or `fmt.Printf`. -/
  | print (text : String)
deriving DecidableEq, Repr

/-- What a call leaves behind, each in order: its output, the requests that
`http.NewRequest` constructed for it, and the requests it handed to
`Client.Do`. -/
structure Trace where
  out : List Output
  created : List Request
  sent : List Request
deriving DecidableEq, Repr

/-- Nothing left behind. -/
def Trace.empty : Trace := { out := [], created := [], sent := [] }

/-- One trace after another. -/
def Trace.append (s t : Trace) : Trace :=
  { out := s.out ++ t.out, created := s.created ++ t.created, sent := s.sent ++ t.sent }

/-- A computation of the package: how it ends (with a value or with an
abort) and what it leaves behind until then. -/
structure Exec (α : Type) where
  outcome : Except Abort α
  trace : Trace

/-- Sequencing: the second computation runs when the first ends with a
value, and its trace follows the trace of the first. -/
def Exec.bind {α β : Type} (m : Exec α) (f : α → Exec β) : Exec β :=
  match m.outcome with
  | .ok a => { outcome := (f a).outcome, trace := m.trace.append (f a).trace }
  | .error e => { outcome := .error e, trace := m.trace }

instance : Monad Exec where
  pure a := { outcome := .ok a, trace := Trace.empty }
  bind := Exec.bind

/-- Ends the process. -/
def abort {α : Type} (e : Abort) : Exec α := { outcome := .error e, trace := Trace.empty }

/-- Go `log.Fatalln`. -/
def Fatalln {α : Type} (operands : List String) : Exec α := abort (.fatal operands)

/-- Writes one piece of output. -/
def emit (o : Output) : Exec Unit :=
  { outcome := .ok (), trace := { out := [o], created := [], sent := [] } }

/-- A computation that leaves nothing behind, inside `Exec`. -/
def liftExcept {α : Type} : Except Abort α → Exec α
  | .ok a => pure a
  | .error e => abort e

/-- The output of a call. -/
def Exec.output {α : Type} (m : Exec α) : List Output := m.trace.out

/-- The requests constructed during a call. -/
def Exec.created {α : Type} (m : Exec α) : List Request := m.trace.created

/-- The requests a call handed to the client. -/
def Exec.sent {α : Type} (m : Exec α) : List Request := m.trace.sent

/-- Go `http.NewRequest` as a step of a call: a request that is constructed
is recorded. -/
def newRequest (env : Env) (method url : String) (body : Option String) :
    Exec (Option Request × Option String) :=
  match NewRequest env method url body with
  | (some r, err) =>
    { outcome := .ok (some r, err), trace := { out := [], created := [r], sent := [] } }
  | (none, err) => { outcome := .ok (none, err), trace := Trace.empty }

/-! ## `logging.go` -/

/-- `PrintInfo` of `logging.go`. -/
def PrintInfo (message : String) : Exec Unit := emit (.log ("[=] " ++ message))

/-- `PrintSuccess` of `logging.go`. -/
def PrintSuccess (message : String) : Exec Unit :=
  emit (.log ("\x1b[32m[+] \x1b[0m" ++ message))

/-- `PrintFailure` of `logging.go`. -/
def PrintFailure (message : String) : Exec Unit :=
  emit (.log ("\x1b[31m[-] \x1b[0m" ++ message))

/-! ## `requests.go` -/

/-- `GetRequest` of `requests.go`. -/
structure GetRequest where
  AuthUser : String
  AuthPass : String

/-- `PostRequest` of `requests.go`.  An entry of `Cookies` is a pointer. -/
structure PostRequest where
  AuthUser : String
  AuthPass : String
  ContentType : String
  Cookies : List (Option Cookie)
  FormData : Values
  Headers : List (String × String)
  JsonData : String
  MultipartData : List (String × String)
  XmlData : String

/-- `DeleteRequest` of `requests.go`. -/
structure DeleteRequest where
  AuthUser : String
  AuthPass : String

/-- `Response` of `requests.go`. -/
structure Response where
  StatusCode : Int
  ContentLength : Int
  ResponseBody : String
  ResponseHeaders : List (String × String)
deriving DecidableEq, Repr

/-- The loop of `requests.go` lines 77-80 (and 241-244, 305-308): every
header of the response with its values joined. -/
def flattenHeaders (header : List (String × List String)) : List (String × String) :=
  header.foldl (fun respHeaders kv => mapSet respHeaders kv.1 (Join kv.2 ", ")) []

/-- Go `Client.Do` on the shared client: the request is handed over, and an
error is fatal (lines 60-63). -/
def clientDo (env : Env) (req : Option Request) : Exec HttpResponse :=
  match req with
  | none => abort .nilDereference
  | some r =>
    match env.clientDo r with
    | .error err =>
      { outcome := .error (.fatal ["[-] Failed to send HTTP request: ", err]),
        trace := { out := [], created := [], sent := [r] } }
    | .ok resp => { outcome := .ok resp, trace := { out := [], created := [], sent := [r] } }

/-- Lines 60-107 of `SendGetRequest`, which are lines 224-271 of
`SendPostRequest` and lines 288-335 of `SendDeleteRequest` word for word:
send the request, read the body, flatten the headers, print when debugging,
return. -/
def sendAndCollect (env : Env) (debug : Bool) (req : Option Request) : Exec Response := do
  let resp ← clientDo env req
  if debug then
    PrintSuccess "Got HTTP response!"
  let bodyString ← match resp.Body with
    | .error err => Fatalln ["[-] Failed to read HTTP response body: ", err]
    | .ok body => pure body
  let respHeaders := flattenHeaders resp.Header
  if debug then
    PrintInfo ("HTTP response status code: " ++ toString resp.StatusCode)
    PrintInfo ("HTTP response content length: " ++ toString resp.ContentLength)
    PrintInfo "Response body: "
    emit (.print (bodyString ++ "\n"))
    PrintInfo "Response headers: "
    respHeaders.forM (fun hv => emit (.print ("\t" ++ hv.1 ++ " = " ++ hv.2 ++ "\n")))
    emit (.print "\n")
  pure
    { StatusCode := resp.StatusCode
      ContentLength := resp.ContentLength
      ResponseBody := bodyString
      ResponseHeaders := respHeaders }

/-- `SendGetRequest` of `requests.go`. -/
def SendGetRequest (env : Env) (debug : Bool) (requestURL : String)
    (getRequest : GetRequest) : Exec Response := do
  let (req, err) ← newRequest env MethodGet requestURL none
  if let some e := err then
    Fatalln ["[-] Failed to create HTTP request: ", e]
  let req ← if getRequest.AuthUser ≠ "" then
      match req with
      | none => abort .nilDereference
      | some r => pure (some (r.SetBasicAuth getRequest.AuthUser getRequest.AuthPass))
    else pure req
  if debug then
    PrintInfo ("Sending HTTP GET request to: " ++ requestURL)
  sendAndCollect env debug req

/-- One step of the loop of `CreateMultipartFormData` (lines 114-138).
Creating a part and writing a field go to a `bytes.Buffer` and return no
error, so lines 123-125 and 135-137 have no abort here. -/
def multipartStep (env : Env) (w : Writer) (entry : String × String) : Except Abort Writer :=
  let key := entry.1
  let value := entry.2
  if HasPrefix value "@" then
    let value := sliceFrom1 value
    match osOpen env value with
    | .error err => .error (.fatal ["Error while opening file " ++ value ++ ": ", err])
    | .ok file =>
      let part := w.CreateFormFile key value
      match ioCopy part file with
      | (_, some err) => .error (.fatal ["Error writing file to part: ", err])
      | (part, none) => .ok part
  else
    .ok (w.WriteField key value)

/-- `CreateMultipartFormData` of `requests.go`: the buffer and the writer,
which is returned without having been closed. -/
def CreateMultipartFormData (env : Env) (form : List (String × String)) :
    Except Abort (String × Writer) := do
  let w := NewWriter env
  let w ← form.foldlM (multipartStep env) w
  pure (w.w, w)

/-- Go `req.Header.Add(key, value)` through the pointer `req`. -/
def headerAdd (req : Option Request) (key value : String) : Exec (Option Request) :=
  match req with
  | none => abort .nilDereference
  | some r => pure (some { r with Header := r.Header.Add key value })

/-- Go `req.AddCookie(cookie)` through the pointers `req` and `cookie`. -/
def addCookie (env : Env) (req : Option Request) (cookie : Option Cookie) :
    Exec (Option Request) :=
  match req, cookie with
  | some r, some c => pure (some (r.AddCookie env c))
  | _, _ => abort .nilDereference

/-- Lines 152-159 of `SendPostRequest`: the multipart block.  The header
is added through `req` before `err` is looked at. -/
def multipartBlock (env : Env) (requestURL : String) (postRequest : PostRequest)
    (req : Option Request) : Exec (Option Request) :=
  if postRequest.ContentType = "multipart" then do
    let (buffer, mpWriter) ← liftExcept (CreateMultipartFormData env postRequest.MultipartData)
    let (req, err) ← newRequest env MethodPost requestURL (some buffer)
    let req ← headerAdd req "Content-Type" mpWriter.FormDataContentType
    if let some e := err then
      Fatalln ["[-] Failed to create HTTP request: ", e]
    pure req
  else pure req

/-- Lines 162-169 of `SendPostRequest`: the form block. -/
def formBlock (env : Env) (requestURL : String) (postRequest : PostRequest)
    (req : Option Request) : Exec (Option Request) :=
  if postRequest.ContentType = "form" then do
    let (req, err) ← newRequest env MethodPost requestURL (some postRequest.FormData.Encode)
    let req ← headerAdd req "Content-Type" "application/x-www-form-urlencoded"
    if let some e := err then
      Fatalln ["[-] Failed to create HTTP request: ", e]
    pure req
  else pure req

/-- Lines 172-182 of `SendPostRequest`: the JSON block. -/
def jsonBlock (env : Env) (debug : Bool) (requestURL : String) (postRequest : PostRequest)
    (req : Option Request) : Exec (Option Request) :=
  if postRequest.ContentType = "json" then do
    if debug then
      PrintInfo "JSON HTTP POST payload:"
      emit (.print (postRequest.JsonData ++ "\n"))
    let (req, err) ← newRequest env MethodPost requestURL (some postRequest.JsonData)
    let req ← headerAdd req "Content-Type" "application/json"
    if let some e := err then
      Fatalln ["[-] Failed to create HTTP request: ", e]
    pure req
  else pure req

/-- Lines 185-195 of `SendPostRequest`: the XML block. -/
def xmlBlock (env : Env) (debug : Bool) (requestURL : String) (postRequest : PostRequest)
    (req : Option Request) : Exec (Option Request) :=
  if postRequest.ContentType = "xml" then do
    if debug then
      PrintInfo "XML HTTP POST payload:"
      emit (.print (postRequest.XmlData ++ "\n"))
    let (req, err) ← newRequest env MethodPost requestURL (some postRequest.XmlData)
    let req ← headerAdd req "Content-Type" "application/xml"
    if let some e := err then
      Fatalln ["[-] Failed to create HTTP request: ", e]
    pure req
  else pure req

/-- Lines 197-202 of `SendPostRequest`: the block without a body. -/
def noneBlock (env : Env) (requestURL : String) (postRequest : PostRequest)
    (req : Option Request) : Exec (Option Request) :=
  if postRequest.ContentType = "none" then do
    let (req, err) ← newRequest env MethodPost requestURL none
    if let some e := err then
      Fatalln ["[-] Failed to create HTTP request: ", e]
    pure req
  else pure req

/-- Lines 204-206 of `SendPostRequest`: any other discriminator is fatal. -/
def modeCheck (postRequest : PostRequest) : Exec Unit :=
  if postRequest.ContentType ≠ "none" ∧ postRequest.ContentType ≠ "multipart" ∧
      postRequest.ContentType ≠ "form" ∧ postRequest.ContentType ≠ "json" ∧
      postRequest.ContentType ≠ "xml" then
    Fatalln ["[-] Failed to create HTTP request: Invalid POST request mode - " ++
      postRequest.ContentType]
  else pure ()

/-- Lines 208-219 of `SendPostRequest`: basic authentication, the custom
headers and the cookies, each through the pointer `req`. -/
def attachBlock (env : Env) (postRequest : PostRequest) (req : Option Request) :
    Exec (Option Request) := do
  let req ← if postRequest.AuthUser ≠ "" then
      match req with
      | none => abort .nilDereference
      | some r => pure (some (r.SetBasicAuth postRequest.AuthUser postRequest.AuthPass))
    else pure req
  let req ← postRequest.Headers.foldlM (fun req kv => headerAdd req kv.1 kv.2) req
  -- add cookies to the created request
  postRequest.Cookies.foldlM (fun req cookie => addCookie env req cookie) req

/-- `SendPostRequest` of `requests.go`: its blocks in the order of the
source, the variable `req` handed from each to the next. -/
def SendPostRequest (env : Env) (debug : Bool) (requestURL : String)
    (postRequest : PostRequest) : Exec Response := do
  let req : Option Request := none
  let req ← multipartBlock env requestURL postRequest req
  let req ← formBlock env requestURL postRequest req
  let req ← jsonBlock env debug requestURL postRequest req
  let req ← xmlBlock env debug requestURL postRequest req
  let req ← noneBlock env requestURL postRequest req
  modeCheck postRequest
  let req ← attachBlock env postRequest req
  if debug then
    PrintInfo ("Sending HTTP POST request to: " ++ requestURL)
  sendAndCollect env debug req

/-- `SendDeleteRequest` of `requests.go`. -/
def SendDeleteRequest (env : Env) (debug : Bool) (requestURL : String)
    (deleteRequest : DeleteRequest) : Exec Response := do
  let (req, err) ← newRequest env MethodDelete requestURL none
  if let some e := err then
    Fatalln ["[-] Failed to create HTTP request: ", e]
  let req ← if deleteRequest.AuthUser ≠ "" then
      match req with
      | none => abort .nilDereference
      | some r => pure (some (r.SetBasicAuth deleteRequest.AuthUser deleteRequest.AuthPass))
    else pure req
  if debug then
    PrintInfo ("Sending HTTP DELETE request to: " ++ requestURL)
  sendAndCollect env debug req

/-! ## `init.go` -/

/-- Go `http.Transport`, as far as `init` sets it.  `Proxy` is absent when
the field is left nil; `some p` is the function `http.ProxyURL(p)`, which
answers every request with the fixed URL `p` (with no proxy when `p` is nil). -/
structure Transport where
  InsecureSkipVerify : Bool
  DisableCompression : Bool
  Proxy : Option (Option String)
deriving DecidableEq, Repr

/-- The transport built by `init` of `init.go` (lines 17-31).  A parsed URL
is identified with its raw text; the error of `url.Parse` is discarded and
leaves the nil URL. -/
def initTransport (env : Env) : Transport :=
  let proxyURL := env.HTTP_PROXY
  if proxyURL ≠ "" then
    let proxyUrl : Option String :=
      match urlParse env proxyURL with
      | some _ => none
      | none => some proxyURL
    { InsecureSkipVerify := true, DisableCompression := true, Proxy := some proxyUrl }
  else
    { InsecureSkipVerify := true, DisableCompression := true, Proxy := none }

/-- The proxy a transport uses for a request: Go calls `Proxy` when it is
set, and a nil answer means a direct connection. -/
def Transport.upstream (t : Transport) : Option String :=
  match t.Proxy with
  | none => none
  | some p => p

/-! ## Closed forms

The definitions below are not part of the package: they state, without the
monad, what its computations amount to, and the lemmas of the next sections
prove that they do. -/

/-- How `sendAndCollect` ends on a request, in closed form. -/
def collectOutcome (env : Env) (r : Request) : Except Abort Response :=
  match env.clientDo r with
  | .error err => .error (.fatal ["[-] Failed to send HTTP request: ", err])
  | .ok resp =>
    match resp.Body with
    | .error err => .error (.fatal ["[-] Failed to read HTTP response body: ", err])
    | .ok body =>
      .ok { StatusCode := resp.StatusCode, ContentLength := resp.ContentLength,
            ResponseBody := body, ResponseHeaders := flattenHeaders resp.Header }

/-- Lines 53-55 (and 208-210, 281-283) in closed form. -/
def withAuth (r : Request) (user pass : String) : Request :=
  if user ≠ "" then r.SetBasicAuth user pass else r

/-- The loop of lines 212-214 in closed form. -/
def addHeaders (r : Request) (hs : List (String × String)) : Request :=
  hs.foldl (fun r kv => { r with Header := r.Header.Add kv.1 kv.2 }) r

/-- The loop of lines 217-219 in closed form: no request when a cookie is nil. -/
def addCookies (env : Env) : Request → List (Option Cookie) → Option Request
  | r, [] => some r
  | _, none :: _ => none
  | r, some c :: cs => addCookies env (r.AddCookie env c) cs

/-- A fresh POST request with one `Content-Type` value. -/
def postWith (url body contentType : String) : Request :=
  { Method := MethodPost, URL := url, Header := Header.Add [] "Content-Type" contentType,
    Body := body }

/-- Lines 146-206 in closed form: the request that leaves the discriminator
blocks, or the abort that ends them. -/
def postBuilt (env : Env) (url : String) (p : PostRequest) : Except Abort Request :=
  if p.ContentType = "multipart" then
    match CreateMultipartFormData env p.MultipartData with
    | .error e => .error e
    | .ok bw =>
      match urlParse env url with
      | some _ => .error .nilDereference
      | none => .ok (postWith url bw.1 bw.2.FormDataContentType)
  else if p.ContentType = "form" then
    match urlParse env url with
    | some _ => .error .nilDereference
    | none => .ok (postWith url p.FormData.Encode "application/x-www-form-urlencoded")
  else if p.ContentType = "json" then
    match urlParse env url with
    | some _ => .error .nilDereference
    | none => .ok (postWith url p.JsonData "application/json")
  else if p.ContentType = "xml" then
    match urlParse env url with
    | some _ => .error .nilDereference
    | none => .ok (postWith url p.XmlData "application/xml")
  else if p.ContentType = "none" then
    match urlParse env url with
    | some err => .error (.fatal ["[-] Failed to create HTTP request: ", err])
    | none => .ok { Method := MethodPost, URL := url, Header := [], Body := "" }
  else
    .error (.fatal ["[-] Failed to create HTTP request: Invalid POST request mode - " ++
      p.ContentType])

/-- Lines 146-219 in closed form: the request that reaches `Client.Do`, or
the abort before it. -/
def postFinal (env : Env) (url : String) (p : PostRequest) : Except Abort Request :=
  match postBuilt env url p with
  | .error e => .error e
  | .ok r =>
    match addCookies env (addHeaders (withAuth r p.AuthUser p.AuthPass) p.Headers) p.Cookies with
    | none => .error .nilDereference
    | some q => .ok q

/-- The debug output of the JSON and XML blocks. -/
def payloadOutput (debug : Bool) (title payload : String) : List Output :=
  if debug then [.log ("[=] " ++ title), .print (payload ++ "\n")] else []

/-! ## Calls -/

/-- One call of the package: the verb and its options. -/
inductive Call where
  | get (o : GetRequest)
  | post (o : PostRequest)
  | delete (o : DeleteRequest)

/-- The function of `requests.go` that a call stands for. -/
def Call.send (env : Env) (debug : Bool) (requestURL : String) : Call → Exec Response
  | .get o => SendGetRequest env debug requestURL o
  | .post o => SendPostRequest env debug requestURL o
  | .delete o => SendDeleteRequest env debug requestURL o

/-- Closed form of a call up to `Client.Do`: the request that reaches the
client, or the abort before it. -/
def Call.final (env : Env) (url : String) : Call → Except Abort Request
  | .get o =>
    match urlParse env url with
    | some err => .error (.fatal ["[-] Failed to create HTTP request: ", err])
    | none => .ok (withAuth ⟨MethodGet, url, [], ""⟩ o.AuthUser o.AuthPass)
  | .post o => postFinal env url o
  | .delete o =>
    match urlParse env url with
    | some err => .error (.fatal ["[-] Failed to create HTTP request: ", err])
    | none => .ok (withAuth ⟨MethodDelete, url, [], ""⟩ o.AuthUser o.AuthPass)

/-- Closed form of the requests that a call constructs. -/
def Call.constructed (env : Env) (url : String) : Call → List Request
  | .get _ =>
    match urlParse env url with
    | some _ => []
    | none => [⟨MethodGet, url, [], ""⟩]
  | .post o =>
    match postBuilt env url o with
    | .error _ => []
    | .ok r => [{ r with Header := [] }]
  | .delete _ =>
    match urlParse env url with
    | some _ => []
    | none => [⟨MethodDelete, url, [], ""⟩]

/-! ## The parts of a multipart body -/

/-- One part of a multipart body: the field name, the file name of a file
part, and the content. -/
structure Part where
  name : String
  filename : Option String
  content : String
deriving DecidableEq, Repr

/-- The header lines of a part on the wire: a file part has a file name in
its `Content-Disposition` and the type `application/octet-stream`, a plain
form field has the field name only. -/
def Part.headerLines (p : Part) : String :=
  match p.filename with
  | some f =>
    "Content-Disposition: form-data; name=" ++ dquote ++ escapeQuotes p.name ++ dquote ++
      "; filename=" ++ dquote ++ escapeQuotes f ++ dquote ++ "\r\n" ++
      "Content-Type: application/octet-stream\r\n"
  | none =>
    "Content-Disposition: form-data; name=" ++ dquote ++ escapeQuotes p.name ++ dquote ++ "\r\n"

/-- A part on the wire: the boundary delimiter (behind a line break unless
the part is the first), the header lines, an empty line, the content. -/
def encodePart (boundary : String) (first : Bool) (p : Part) : String :=
  (if first then "--" else "\r\n--") ++ boundary ++ "\r\n" ++ p.headerLines ++ "\r\n" ++
    p.content

/-- The parts on the wire one after another, without a closing delimiter. -/
def encodeParts (boundary : String) : Bool → List Part → String
  | _, [] => ""
  | first, p :: ps => encodePart boundary first p ++ encodeParts boundary false ps

/-- The part that an entry of the field mapping stands for: a value that
starts with `@` names a file by the rest of the value, any other value is
the content of a plain field. -/
def partOf (env : Env) (entry : String × String) : Part :=
  if HasPrefix entry.2 "@" then
    { name := entry.1, filename := some (sliceFrom1 entry.2),
      content := match osOpen env (sliceFrom1 entry.2) with
        | .ok file => file.content
        | .error _ => "" }
  else
    { name := entry.1, filename := none, content := entry.2 }

/-- Whether the file that an entry refers to, if it refers to one, opens. -/
def entryOpens (env : Env) (entry : String × String) : Bool :=
  if HasPrefix entry.2 "@" then
    match osOpen env (sliceFrom1 entry.2) with
    | .ok _ => true
    | .error _ => false
  else true

/-- Whether the file that an entry refers to, if it refers to one, opens and
is read to its end without an error. -/
def entryReadable (env : Env) (entry : String × String) : Bool :=
  if HasPrefix entry.2 "@" then
    match osOpen env (sliceFrom1 entry.2) with
    | .ok file => file.readErr.isNone
    | .error _ => false
  else true

/-- Go `strings.HasSuffix`. -/
def HasSuffix (s suffix : String) : Bool := suffix.data.isSuffixOf s.data

/-- The closing boundary delimiter of a multipart body, which
`multipart.Writer.Close` writes. -/
def closingDelimiter (boundary : String) : String := "\r\n--" ++ boundary ++ "--\r\n"

/-! ## What the claims speak of -/

/-- The values that the entries of `Headers` put under a header name, in the
order of the loop of lines 212-214. -/
def headerValuesFor (name : String) (hs : List (String × String)) : List String :=
  (hs.filter (fun kv => CanonicalMIMEHeaderKey kv.1 == CanonicalMIMEHeaderKey name)).map
    Prod.snd

/-- The `Content-Type` value that belongs to a discriminator with a body. -/
def expectedContentType (env : Env) (p : PostRequest) : String :=
  if p.ContentType = "form" then "application/x-www-form-urlencoded"
  else if p.ContentType = "json" then "application/json"
  else if p.ContentType = "xml" then "application/xml"
  else "multipart/form-data; boundary=" ++ randomBoundary env

/-- The reference encoding of the body for a discriminator. -/
def referenceBody (env : Env) (p : PostRequest) : String :=
  if p.ContentType = "form" then p.FormData.Encode
  else if p.ContentType = "json" then p.JsonData
  else if p.ContentType = "xml" then p.XmlData
  else if p.ContentType = "multipart" then
    match CreateMultipartFormData env p.MultipartData with
    | .ok bw => bw.1
    | .error _ => ""
  else ""

/-- Whether a request carries a basic-auth `Authorization` header. -/
def hasBasicAuth (q : Request) : Bool :=
  (q.Header.Values "Authorization").any (fun v => HasPrefix v "Basic ")

/-- The `AuthUser` of a call. -/
def Call.AuthUser : Call → String
  | .get o => o.AuthUser
  | .post o => o.AuthUser
  | .delete o => o.AuthUser

/-- The `AuthPass` of a call. -/
def Call.AuthPass : Call → String
  | .get o => o.AuthPass
  | .post o => o.AuthPass
  | .delete o => o.AuthPass

/-- The custom headers of a call: only a POST has any. -/
def Call.Headers : Call → List (String × String)
  | .get _ => []
  | .post o => o.Headers
  | .delete _ => []

/-- Two POST options values with the same discriminator and the same value
in the payload field that the discriminator selects. -/
def samePayload (p p2 : PostRequest) : Prop :=
  p2.ContentType = p.ContentType ∧
  (p.ContentType = "form" → p2.FormData = p.FormData) ∧
  (p.ContentType = "json" → p2.JsonData = p.JsonData) ∧
  (p.ContentType = "xml" → p2.XmlData = p.XmlData) ∧
  (p.ContentType = "multipart" → p2.MultipartData = p.MultipartData)

/-! ## Sample inputs -/

/-- A sample environment: every URL without a control byte parses, the
random source counts upwards, the file `a.txt` holds `hello`, the path `dir`
opens but cannot be read, and the client answers every request with the same
response, which has a header with two values and one with none. -/
def sampleEnv : Env :=
  { parseURL := fun _ => none
    randomBytes := fun i => i
    openFile := fun name =>
      if name = "a.txt" then .ok ⟨"hello", none⟩
      else if name = "dir" then .ok ⟨"", some "read dir: is a directory"⟩
      else .error ("open " ++ name ++ ": no such file or directory")
    sanitizeCookieName := id
    sanitizeCookieValue := id
    clientDo := fun _ =>
      .ok { StatusCode := 200, ContentLength := 2,
            Header := [("Set-Cookie", ["a=1", "b=2"]), ("Server", ["go"]), ("X-Empty", [])],
            Body := .ok "ok" }
    HTTP_PROXY := "" }

/-- The zero value of `PostRequest`. -/
def zeroPost : PostRequest :=
  { AuthUser := "", AuthPass := "", ContentType := "", Cookies := [], FormData := [],
    Headers := [], JsonData := "", MultipartData := [], XmlData := "" }

/-- A field mapping with a file, a plain field and an empty value. -/
def sampleForm : List (String × String) :=
  [("upload", "@a.txt"), ("note", "hi"), ("empty", "")]

/-- A POST with a JSON body and a custom `Content-Type` header. -/
def postWithContentTypeHeader : PostRequest :=
  { zeroPost with ContentType := "json", JsonData := "[1]",
                  Headers := [("Content-Type", "text/plain")] }

/-- A POST without a user name and with a custom `Authorization` header. -/
def postWithAuthorizationHeader : PostRequest :=
  { zeroPost with ContentType := "none", AuthPass := "secret",
                  Headers := [("Authorization", "Basic dTpw")] }

/-- A POST with a JSON body, a user name, a custom header and a cookie. -/
def samplePost : PostRequest :=
  { zeroPost with ContentType := "json", JsonData := "[1]", AuthUser := "u", AuthPass := "p",
                  Headers := [("X-Trace", "1")], Cookies := [some ⟨"sid", "42"⟩],
                  XmlData := "<a/>" }

/-- The request that `samplePost` hands to the client. -/
def samplePostSent : Request :=
  { Method := "POST", URL := "http://example.com",
    Header := [("Content-Type", ["application/json"]), ("Authorization", ["Basic dTpw"]),
               ("X-Trace", ["1"]), ("Cookie", ["sid=42"])],
    Body := "[1]" }

/-- A URL that `url.Parse` rejects: it holds a control byte. -/
def rejectedURL : String := "http://example.com/\n"

/-- An environment whose `HTTP_PROXY` is a proxy URL. -/
def proxyEnv : Env := { sampleEnv with HTTP_PROXY := "http://10.0.0.1:3128" }

/-- An environment whose `HTTP_PROXY` is a proxy URL with a carriage return
behind it, which `url.Parse` rejects. -/
def unparsableProxyEnv : Env := { sampleEnv with HTTP_PROXY := "http://10.0.0.1:3128\r" }

/-! ## Evaluation lemmas -/

@[simp] theorem Trace.empty_append (t : Trace) : Trace.empty.append t = t := by
  cases t; simp [Trace.append, Trace.empty]

@[simp] theorem Trace.append_empty (t : Trace) : t.append Trace.empty = t := by
  cases t; simp [Trace.append, Trace.empty]

@[simp] theorem Trace.append_out (s t : Trace) : (s.append t).out = s.out ++ t.out := rfl

@[simp] theorem Trace.append_created (s t : Trace) :
    (s.append t).created = s.created ++ t.created := rfl

@[simp] theorem Trace.append_sent (s t : Trace) : (s.append t).sent = s.sent ++ t.sent := rfl

@[simp] theorem Trace.empty_out : Trace.empty.out = [] := rfl

@[simp] theorem Trace.empty_created : Trace.empty.created = [] := rfl

@[simp] theorem Trace.empty_sent : Trace.empty.sent = [] := rfl

@[simp] theorem bind_ok {α β : Type} (a : α) (t : Trace) (f : α → Exec β) :
    ((Exec.mk (Except.ok a) t) >>= f) = Exec.mk (f a).outcome (t.append (f a).trace) := rfl

@[simp] theorem bind_error {α β : Type} (e : Abort) (t : Trace) (f : α → Exec β) :
    ((Exec.mk (Except.error e) t) >>= f) = Exec.mk (Except.error e) t := rfl

theorem pure_eq {α : Type} (a : α) : (pure a : Exec α) = Exec.mk (Except.ok a) Trace.empty := rfl

theorem forM_emit (f : String × String → Output) (l : List (String × String)) :
    (l.forM (fun hv =>
        (Exec.mk (Except.ok ()) { out := [f hv], created := [], sent := [] } : Exec Unit))) =
      Exec.mk (Except.ok PUnit.unit) { out := l.map f, created := [], sent := [] } := by
  induction l with
  | nil => rfl
  | cons a l ih =>
    simp only [List.forM, bind_ok] at ih ⊢
    simp [ih, Trace.append]

/-! ## The three calls in closed form -/

theorem sendAndCollect_spec (env : Env) (debug : Bool) (r : Request) :
    (sendAndCollect env debug (some r)).outcome = collectOutcome env r ∧
    (sendAndCollect env debug (some r)).trace.created = [] ∧
    (sendAndCollect env debug (some r)).trace.sent = [r] ∧
    (debug = false → (sendAndCollect env debug (some r)).trace.out = []) := by
  unfold sendAndCollect clientDo collectOutcome
  cases h : env.clientDo r with
  | error err => simp [h]
  | ok resp =>
    cases hb : resp.Body with
    | error err => cases debug <;> simp [h, hb, pure_eq, Fatalln, abort, PrintSuccess, emit]
    | ok body =>
      cases debug <;> simp [h, hb, pure_eq, Fatalln, abort, PrintSuccess, PrintInfo, emit, forM_emit]

@[simp] theorem headerAdd_some (r : Request) (k v : String) :
    headerAdd (some r) k v =
      Exec.mk (Except.ok (some { r with Header := r.Header.Add k v })) Trace.empty := rfl

@[simp] theorem headerAdd_none (k v : String) :
    headerAdd none k v = Exec.mk (Except.error Abort.nilDereference) Trace.empty := rfl

theorem foldlM_headerAdd (hs : List (String × String)) (r : Request) :
    hs.foldlM (fun req kv => headerAdd req kv.1 kv.2) (some r) =
      (Exec.mk (Except.ok (some (addHeaders r hs))) Trace.empty) := by
  induction hs generalizing r with
  | nil => rfl
  | cons kv hs ih =>
    simp only [List.foldlM, headerAdd_some, bind_ok, addHeaders, List.foldl] at ih ⊢
    simp [ih]

theorem foldlM_addCookie (env : Env) (cs : List (Option Cookie)) (r : Request) :
    cs.foldlM (fun req cookie => addCookie env req cookie) (some r) =
      (match addCookies env r cs with
       | some q => Exec.mk (Except.ok (some q)) Trace.empty
       | none => Exec.mk (Except.error Abort.nilDereference) Trace.empty) := by
  induction cs generalizing r with
  | nil => rfl
  | cons c cs ih =>
    cases c with
    | none => simp [List.foldlM, addCookie, abort, addCookies]
    | some c =>
      simp only [List.foldlM, addCookie, pure_eq, bind_ok, addCookies] at ih ⊢
      rw [ih]
      cases addCookies env (r.AddCookie env c) cs <;> simp

theorem SendGetRequest_fail (env : Env) (debug : Bool) (url : String) (g : GetRequest)
    (err : String) (h : urlParse env url = some err) :
    SendGetRequest env debug url g =
      Exec.mk (Except.error (Abort.fatal ["[-] Failed to create HTTP request: ", err]))
        Trace.empty := by
  cases debug <;>
    simp [SendGetRequest, newRequest, NewRequest, h, Fatalln, abort]

theorem SendGetRequest_ok (env : Env) (debug : Bool) (url : String) (g : GetRequest)
    (h : urlParse env url = none) :
    (SendGetRequest env debug url g).outcome =
        collectOutcome env (withAuth ⟨MethodGet, url, [], ""⟩ g.AuthUser g.AuthPass) ∧
    (SendGetRequest env debug url g).trace.created = [⟨MethodGet, url, [], ""⟩] ∧
    (SendGetRequest env debug url g).trace.sent =
        [withAuth ⟨MethodGet, url, [], ""⟩ g.AuthUser g.AuthPass] ∧
    (debug = false → (SendGetRequest env debug url g).trace.out = []) := by
  have hs := sendAndCollect_spec env debug (withAuth ⟨MethodGet, url, [], ""⟩ g.AuthUser g.AuthPass)
  obtain ⟨h1, h2, h3, h4⟩ := hs
  by_cases hu : g.AuthUser = "" <;> cases debug <;>
    simp_all [SendGetRequest, newRequest, NewRequest, pure_eq, withAuth, PrintInfo, emit]

theorem multipartBlock_skip (env : Env) (url : String) (p : PostRequest) (req : Option Request)
    (h : p.ContentType ≠ "multipart") :
    multipartBlock env url p req = Exec.mk (Except.ok req) Trace.empty := by
  simp [multipartBlock, h, pure_eq]

theorem formBlock_skip (env : Env) (url : String) (p : PostRequest) (req : Option Request)
    (h : p.ContentType ≠ "form") :
    formBlock env url p req = Exec.mk (Except.ok req) Trace.empty := by
  simp [formBlock, h, pure_eq]

theorem jsonBlock_skip (env : Env) (debug : Bool) (url : String) (p : PostRequest)
    (req : Option Request) (h : p.ContentType ≠ "json") :
    jsonBlock env debug url p req = Exec.mk (Except.ok req) Trace.empty := by
  simp [jsonBlock, h, pure_eq]

theorem xmlBlock_skip (env : Env) (debug : Bool) (url : String) (p : PostRequest)
    (req : Option Request) (h : p.ContentType ≠ "xml") :
    xmlBlock env debug url p req = Exec.mk (Except.ok req) Trace.empty := by
  simp [xmlBlock, h, pure_eq]

theorem noneBlock_skip (env : Env) (url : String) (p : PostRequest) (req : Option Request)
    (h : p.ContentType ≠ "none") :
    noneBlock env url p req = Exec.mk (Except.ok req) Trace.empty := by
  simp [noneBlock, h, pure_eq]

theorem formBlock_ok (env : Env) (url : String) (p : PostRequest) (req : Option Request)
    (h : p.ContentType = "form") (hu : urlParse env url = none) :
    formBlock env url p req =
      Exec.mk (Except.ok (some (postWith url p.FormData.Encode "application/x-www-form-urlencoded")))
        { out := [], created := [⟨MethodPost, url, [], p.FormData.Encode⟩], sent := [] } := by
  simp [formBlock, h, hu, newRequest, NewRequest, pure_eq, postWith, Trace.append]

theorem formBlock_fail (env : Env) (url : String) (p : PostRequest) (req : Option Request)
    (err : String) (h : p.ContentType = "form") (hu : urlParse env url = some err) :
    formBlock env url p req = Exec.mk (Except.error Abort.nilDereference) Trace.empty := by
  simp [formBlock, h, hu, newRequest, NewRequest, pure_eq]

theorem jsonBlock_ok (env : Env) (debug : Bool) (url : String) (p : PostRequest)
    (req : Option Request) (h : p.ContentType = "json") (hu : urlParse env url = none) :
    jsonBlock env debug url p req =
      Exec.mk (Except.ok (some (postWith url p.JsonData "application/json")))
        { out := payloadOutput debug "JSON HTTP POST payload:" p.JsonData,
          created := [⟨MethodPost, url, [], p.JsonData⟩], sent := [] } := by
  cases debug <;>
    simp [jsonBlock, h, hu, newRequest, NewRequest, pure_eq, postWith, Trace.append,
      payloadOutput, PrintInfo, emit]

theorem jsonBlock_fail (env : Env) (debug : Bool) (url : String) (p : PostRequest)
    (req : Option Request) (err : String) (h : p.ContentType = "json")
    (hu : urlParse env url = some err) :
    jsonBlock env debug url p req =
      Exec.mk (Except.error Abort.nilDereference)
        { out := payloadOutput debug "JSON HTTP POST payload:" p.JsonData,
          created := [], sent := [] } := by
  cases debug <;>
    simp [jsonBlock, h, hu, newRequest, NewRequest, pure_eq, Trace.append,
      payloadOutput, PrintInfo, emit, Trace.empty]

theorem xmlBlock_ok (env : Env) (debug : Bool) (url : String) (p : PostRequest)
    (req : Option Request) (h : p.ContentType = "xml") (hu : urlParse env url = none) :
    xmlBlock env debug url p req =
      Exec.mk (Except.ok (some (postWith url p.XmlData "application/xml")))
        { out := payloadOutput debug "XML HTTP POST payload:" p.XmlData,
          created := [⟨MethodPost, url, [], p.XmlData⟩], sent := [] } := by
  cases debug <;>
    simp [xmlBlock, h, hu, newRequest, NewRequest, pure_eq, postWith, Trace.append,
      payloadOutput, PrintInfo, emit]

theorem xmlBlock_fail (env : Env) (debug : Bool) (url : String) (p : PostRequest)
    (req : Option Request) (err : String) (h : p.ContentType = "xml")
    (hu : urlParse env url = some err) :
    xmlBlock env debug url p req =
      Exec.mk (Except.error Abort.nilDereference)
        { out := payloadOutput debug "XML HTTP POST payload:" p.XmlData,
          created := [], sent := [] } := by
  cases debug <;>
    simp [xmlBlock, h, hu, newRequest, NewRequest, pure_eq, Trace.append,
      payloadOutput, PrintInfo, emit, Trace.empty]

theorem noneBlock_ok (env : Env) (url : String) (p : PostRequest) (req : Option Request)
    (h : p.ContentType = "none") (hu : urlParse env url = none) :
    noneBlock env url p req =
      Exec.mk (Except.ok (some ⟨MethodPost, url, [], ""⟩))
        { out := [], created := [⟨MethodPost, url, [], ""⟩], sent := [] } := by
  simp [noneBlock, h, hu, newRequest, NewRequest, pure_eq, Trace.append]

theorem noneBlock_fail (env : Env) (url : String) (p : PostRequest) (req : Option Request)
    (err : String) (h : p.ContentType = "none") (hu : urlParse env url = some err) :
    noneBlock env url p req =
      Exec.mk (Except.error (Abort.fatal ["[-] Failed to create HTTP request: ", err]))
        Trace.empty := by
  simp [noneBlock, h, hu, newRequest, NewRequest, pure_eq, Fatalln, abort]

theorem multipartBlock_abort (env : Env) (url : String) (p : PostRequest)
    (req : Option Request) (e : Abort) (h : p.ContentType = "multipart")
    (hm : CreateMultipartFormData env p.MultipartData = Except.error e) :
    multipartBlock env url p req = Exec.mk (Except.error e) Trace.empty := by
  simp [multipartBlock, h, hm, liftExcept, abort]

theorem multipartBlock_ok (env : Env) (url : String) (p : PostRequest) (req : Option Request)
    (bw : String × Writer) (h : p.ContentType = "multipart")
    (hm : CreateMultipartFormData env p.MultipartData = Except.ok bw)
    (hu : urlParse env url = none) :
    multipartBlock env url p req =
      Exec.mk (Except.ok (some (postWith url bw.1 bw.2.FormDataContentType)))
        { out := [], created := [⟨MethodPost, url, [], bw.1⟩], sent := [] } := by
  simp [multipartBlock, h, hm, hu, liftExcept, newRequest, NewRequest, pure_eq, postWith,
    Trace.append]

theorem multipartBlock_fail (env : Env) (url : String) (p : PostRequest) (req : Option Request)
    (bw : String × Writer) (err : String) (h : p.ContentType = "multipart")
    (hm : CreateMultipartFormData env p.MultipartData = Except.ok bw)
    (hu : urlParse env url = some err) :
    multipartBlock env url p req = Exec.mk (Except.error Abort.nilDereference) Trace.empty := by
  simp [multipartBlock, h, hm, hu, liftExcept, newRequest, NewRequest, pure_eq]

theorem attachBlock_some (env : Env) (p : PostRequest) (r : Request) :
    attachBlock env p (some r) =
      (match addCookies env (addHeaders (withAuth r p.AuthUser p.AuthPass) p.Headers)
          p.Cookies with
       | some q => Exec.mk (Except.ok (some q)) Trace.empty
       | none => Exec.mk (Except.error Abort.nilDereference) Trace.empty) := by
  by_cases ha : p.AuthUser = ""
  · simp only [attachBlock, withAuth, ha, ne_eq, not_true_eq_false, if_false, pure_eq, bind_ok,
      foldlM_headerAdd, foldlM_addCookie]
    cases addCookies env (addHeaders r p.Headers) p.Cookies <;> simp
  · simp only [attachBlock, withAuth, ha, ne_eq, not_false_eq_true, if_true, pure_eq, bind_ok,
      foldlM_headerAdd, foldlM_addCookie]
    cases addCookies env (addHeaders (r.SetBasicAuth p.AuthUser p.AuthPass) p.Headers)
      p.Cookies <;> simp

theorem modeCheck_ok (p : PostRequest)
    (h : p.ContentType = "none" ∨ p.ContentType = "multipart" ∨ p.ContentType = "form" ∨
      p.ContentType = "json" ∨ p.ContentType = "xml") :
    modeCheck p = Exec.mk (Except.ok ()) Trace.empty := by
  unfold modeCheck
  rw [if_neg]
  · rfl
  · intro hn
    obtain ⟨a, b, c, d, e⟩ := hn
    rcases h with h | h | h | h | h <;> contradiction

theorem modeCheck_bad (p : PostRequest)
    (h : p.ContentType ≠ "none" ∧ p.ContentType ≠ "multipart" ∧ p.ContentType ≠ "form" ∧
      p.ContentType ≠ "json" ∧ p.ContentType ≠ "xml") :
    modeCheck p =
      Exec.mk (Except.error (Abort.fatal
        ["[-] Failed to create HTTP request: Invalid POST request mode - " ++ p.ContentType]))
        Trace.empty := by
  unfold modeCheck
  rw [if_pos h]
  rfl

theorem SendPostRequest_spec (env : Env) (debug : Bool) (url : String) (p : PostRequest) :
    (SendPostRequest env debug url p).outcome =
        (match postFinal env url p with
         | .error e => .error e
         | .ok q => collectOutcome env q) ∧
    (SendPostRequest env debug url p).trace.sent =
        (match postFinal env url p with
         | .error _ => []
         | .ok q => [q]) ∧
    (SendPostRequest env debug url p).trace.created =
        (match postBuilt env url p with
         | .error _ => []
         | .ok r => [{ r with Header := [] }]) ∧
    (debug = false → (SendPostRequest env debug url p).trace.out = []) := by
  by_cases h1 : p.ContentType = "multipart"
  · cases hm : CreateMultipartFormData env p.MultipartData with
    | error e =>
      have hb := multipartBlock_abort env url p none e h1 hm
      simp [SendPostRequest, hb, postFinal, postBuilt, h1, hm]
    | ok bw =>
      cases hu : urlParse env url with
      | some err =>
        have hb := multipartBlock_fail env url p none bw err h1 hm hu
        simp [SendPostRequest, hb,  postFinal, postBuilt, h1, hu, payloadOutput, hm]
      | none =>
        have hb := multipartBlock_ok env url p none bw h1 hm hu
        simp only [SendPostRequest, hb, formBlock_skip env url p _ (by rw [h1]; decide), jsonBlock_skip env debug url p _ (by rw [h1]; decide), xmlBlock_skip env debug url p _ (by rw [h1]; decide), noneBlock_skip env url p _ (by rw [h1]; decide), modeCheck_ok p (by simp [h1]), bind_ok,
          attachBlock_some]
        cases hc : addCookies env (addHeaders (withAuth (postWith url bw.1 bw.2.FormDataContentType) p.AuthUser p.AuthPass)
            p.Headers) p.Cookies with
        | none => cases debug <;> simp_all [postFinal, postBuilt, postWith, payloadOutput]
        | some q =>
          obtain ⟨s1, s2, s3, s4⟩ := sendAndCollect_spec env debug q
          cases debug <;>
            simp_all [postFinal, postBuilt, pure_eq, PrintInfo, emit, payloadOutput, postWith]
  by_cases h2 : p.ContentType = "form"
  · cases hu : urlParse env url with
    | some err =>
      have hb := formBlock_fail env url p none err h2 hu
      simp [SendPostRequest, hb, multipartBlock_skip env url p _ (by rw [h2]; decide),  postFinal, postBuilt, h2, hu, payloadOutput]
    | none =>
      have hb := formBlock_ok env url p none h2 hu
      simp only [SendPostRequest, hb, multipartBlock_skip env url p _ (by rw [h2]; decide), jsonBlock_skip env debug url p _ (by rw [h2]; decide), xmlBlock_skip env debug url p _ (by rw [h2]; decide), noneBlock_skip env url p _ (by rw [h2]; decide), modeCheck_ok p (by simp [h2]), bind_ok,
        attachBlock_some]
      cases hc : addCookies env (addHeaders (withAuth (postWith url p.FormData.Encode "application/x-www-form-urlencoded") p.AuthUser p.AuthPass)
          p.Headers) p.Cookies with
      | none => cases debug <;> simp_all [postFinal, postBuilt, postWith, payloadOutput]
      | some q =>
        obtain ⟨s1, s2, s3, s4⟩ := sendAndCollect_spec env debug q
        cases debug <;>
          simp_all [postFinal, postBuilt, pure_eq, PrintInfo, emit, payloadOutput, postWith]
  by_cases h3 : p.ContentType = "json"
  · cases hu : urlParse env url with
    | some err =>
      have hb := jsonBlock_fail env debug url p none err h3 hu
      simp [SendPostRequest, hb, multipartBlock_skip env url p _ (by rw [h3]; decide), formBlock_skip env url p _ (by rw [h3]; decide),  postFinal, postBuilt, h3, hu, payloadOutput]
    | none =>
      have hb := jsonBlock_ok env debug url p none h3 hu
      simp only [SendPostRequest, hb, multipartBlock_skip env url p _ (by rw [h3]; decide), formBlock_skip env url p _ (by rw [h3]; decide), xmlBlock_skip env debug url p _ (by rw [h3]; decide), noneBlock_skip env url p _ (by rw [h3]; decide), modeCheck_ok p (by simp [h3]), bind_ok,
        attachBlock_some]
      cases hc : addCookies env (addHeaders (withAuth (postWith url p.JsonData "application/json") p.AuthUser p.AuthPass)
          p.Headers) p.Cookies with
      | none => cases debug <;> simp_all [postFinal, postBuilt, postWith, payloadOutput]
      | some q =>
        obtain ⟨s1, s2, s3, s4⟩ := sendAndCollect_spec env debug q
        cases debug <;>
          simp_all [postFinal, postBuilt, pure_eq, PrintInfo, emit, payloadOutput, postWith]
  by_cases h4 : p.ContentType = "xml"
  · cases hu : urlParse env url with
    | some err =>
      have hb := xmlBlock_fail env debug url p none err h4 hu
      simp [SendPostRequest, hb, multipartBlock_skip env url p _ (by rw [h4]; decide), formBlock_skip env url p _ (by rw [h4]; decide), jsonBlock_skip env debug url p _ (by rw [h4]; decide),  postFinal, postBuilt, h4, hu, payloadOutput]
    | none =>
      have hb := xmlBlock_ok env debug url p none h4 hu
      simp only [SendPostRequest, hb, multipartBlock_skip env url p _ (by rw [h4]; decide), formBlock_skip env url p _ (by rw [h4]; decide), jsonBlock_skip env debug url p _ (by rw [h4]; decide), noneBlock_skip env url p _ (by rw [h4]; decide), modeCheck_ok p (by simp [h4]), bind_ok,
        attachBlock_some]
      cases hc : addCookies env (addHeaders (withAuth (postWith url p.XmlData "application/xml") p.AuthUser p.AuthPass)
          p.Headers) p.Cookies with
      | none => cases debug <;> simp_all [postFinal, postBuilt, postWith, payloadOutput]
      | some q =>
        obtain ⟨s1, s2, s3, s4⟩ := sendAndCollect_spec env debug q
        cases debug <;>
          simp_all [postFinal, postBuilt, pure_eq, PrintInfo, emit, payloadOutput, postWith]
  by_cases h5 : p.ContentType = "none"
  · cases hu : urlParse env url with
    | some err =>
      have hb := noneBlock_fail env url p none err h5 hu
      simp [SendPostRequest, hb, multipartBlock_skip env url p _ (by rw [h5]; decide), formBlock_skip env url p _ (by rw [h5]; decide), jsonBlock_skip env debug url p _ (by rw [h5]; decide), xmlBlock_skip env debug url p _ (by rw [h5]; decide),  postFinal, postBuilt, h5, hu, payloadOutput]
    | none =>
      have hb := noneBlock_ok env url p none h5 hu
      simp only [SendPostRequest, hb, multipartBlock_skip env url p _ (by rw [h5]; decide), formBlock_skip env url p _ (by rw [h5]; decide), jsonBlock_skip env debug url p _ (by rw [h5]; decide), xmlBlock_skip env debug url p _ (by rw [h5]; decide), modeCheck_ok p (by simp [h5]), bind_ok,
        attachBlock_some]
      cases hc : addCookies env (addHeaders (withAuth (⟨MethodPost, url, [], ""⟩) p.AuthUser p.AuthPass)
          p.Headers) p.Cookies with
      | none => cases debug <;> simp_all [postFinal, postBuilt, postWith, payloadOutput]
      | some q =>
        obtain ⟨s1, s2, s3, s4⟩ := sendAndCollect_spec env debug q
        cases debug <;>
          simp_all [postFinal, postBuilt, pure_eq, PrintInfo, emit, payloadOutput, postWith]
  have hb := modeCheck_bad p ⟨h5, h1, h2, h3, h4⟩
  simp [SendPostRequest, hb, multipartBlock_skip env url p _ h1, formBlock_skip env url p _ h2,
    jsonBlock_skip env debug url p _ h3, xmlBlock_skip env debug url p _ h4,
    noneBlock_skip env url p _ h5, postFinal, postBuilt, h1, h2, h3, h4, h5]

theorem SendDeleteRequest_fail (env : Env) (debug : Bool) (url : String) (g : DeleteRequest)
    (err : String) (h : urlParse env url = some err) :
    SendDeleteRequest env debug url g =
      Exec.mk (Except.error (Abort.fatal ["[-] Failed to create HTTP request: ", err]))
        Trace.empty := by
  cases debug <;>
    simp [SendDeleteRequest, newRequest, NewRequest, h, Fatalln, abort]

theorem SendDeleteRequest_ok (env : Env) (debug : Bool) (url : String) (g : DeleteRequest)
    (h : urlParse env url = none) :
    (SendDeleteRequest env debug url g).outcome =
        collectOutcome env (withAuth ⟨MethodDelete, url, [], ""⟩ g.AuthUser g.AuthPass) ∧
    (SendDeleteRequest env debug url g).trace.created = [⟨MethodDelete, url, [], ""⟩] ∧
    (SendDeleteRequest env debug url g).trace.sent =
        [withAuth ⟨MethodDelete, url, [], ""⟩ g.AuthUser g.AuthPass] ∧
    (debug = false → (SendDeleteRequest env debug url g).trace.out = []) := by
  have hs := sendAndCollect_spec env debug
    (withAuth ⟨MethodDelete, url, [], ""⟩ g.AuthUser g.AuthPass)
  obtain ⟨h1, h2, h3, h4⟩ := hs
  by_cases hu : g.AuthUser = "" <;> cases debug <;>
    simp_all [SendDeleteRequest, newRequest, NewRequest, pure_eq, withAuth, PrintInfo, emit]

/-- Every call in closed form: how it ends, what it hands to the client and
what it constructs do not mention the debug flag, and without the flag
there is no output. -/
theorem Call.send_spec (env : Env) (debug : Bool) (url : String) (c : Call) :
    (c.send env debug url).outcome =
        (match c.final env url with
         | .error e => .error e
         | .ok q => collectOutcome env q) ∧
    (c.send env debug url).sent =
        (match c.final env url with
         | .error _ => []
         | .ok q => [q]) ∧
    (c.send env debug url).created = c.constructed env url ∧
    (debug = false → (c.send env debug url).output = []) := by
  cases c with
  | get o =>
    cases hu : urlParse env url with
    | some err =>
      simp [Call.send, Call.final, Call.constructed, hu, SendGetRequest_fail env debug url o err hu,
        Exec.sent, Exec.created, Exec.output]
    | none =>
      obtain ⟨a, b, c, d⟩ := SendGetRequest_ok env debug url o hu
      simp [Call.send, Call.final, Call.constructed, hu, a, b, c, Exec.sent, Exec.created,
        Exec.output]
      exact d
  | post o =>
    obtain ⟨a, b, c, d⟩ := SendPostRequest_spec env debug url o
    exact ⟨a, b, c, d⟩
  | delete o =>
    cases hu : urlParse env url with
    | some err =>
      simp [Call.send, Call.final, Call.constructed, hu,
        SendDeleteRequest_fail env debug url o err hu, Exec.sent, Exec.created, Exec.output]
    | none =>
      obtain ⟨a, b, c, d⟩ := SendDeleteRequest_ok env debug url o hu
      simp [Call.send, Call.final, Call.constructed, hu, a, b, c, Exec.sent, Exec.created,
        Exec.output]
      exact d

/-- C10. The debug flag does not interfere: for each of the three calls, for
every URL, options value and client, the run with `debug = true` and the run
with `debug = false` construct the same requests, hand the same requests to
the client and end in the same way (the same abort or the same `Response`);
the run without the flag writes no output at all, so the flag only adds
output. -/
theorem debug_flag_only_adds_output (env : Env) (url : String) (c : Call) :
    (c.send env true url).outcome = (c.send env false url).outcome ∧
    (c.send env true url).created = (c.send env false url).created ∧
    (c.send env true url).sent = (c.send env false url).sent ∧
    (c.send env false url).output = [] := by
  obtain ⟨a1, b1, c1, _⟩ := Call.send_spec env true url c
  obtain ⟨a0, b0, c0, d0⟩ := Call.send_spec env false url c
  exact ⟨a1.trans a0.symm, c1.trans c0.symm, b1.trans b0.symm, d0 rfl⟩

/-! ## Response headers and the unsupported discriminator -/

theorem mapGet_mapSet_same {β : Type} (m : List (String × β)) (k : String) (v : β) :
    mapGet (mapSet m k v) k = some v := by
  induction m with
  | nil => simp [mapSet, mapGet]
  | cons a m ih =>
    obtain ⟨a1, a2⟩ := a
    by_cases h : a1 = k <;> simp [mapSet, mapGet, h, ih]

theorem mapGet_mapSet_other {β : Type} (m : List (String × β)) (k j : String) (v : β)
    (h : k ≠ j) : mapGet (mapSet m k v) j = mapGet m j := by
  induction m with
  | nil => simp [mapSet, mapGet, h]
  | cons a m ih =>
    obtain ⟨a1, a2⟩ := a
    by_cases h1 : a1 = k
    · subst h1
      simp [mapSet, mapGet, h]
    · by_cases h2 : a1 = j
      · subst h2
        simp [mapSet, mapGet, h1]
      · simp [mapSet, mapGet, h1, h2, ih]

theorem mapSet_fresh {β : Type} (m : List (String × β)) (k : String) (v : β)
    (h : k ∉ m.map Prod.fst) : mapSet m k v = m ++ [(k, v)] := by
  induction m with
  | nil => rfl
  | cons a m ih =>
    obtain ⟨a1, a2⟩ := a
    simp only [List.map_cons, List.mem_cons, not_or] at h
    have h1 : ¬ a1 = k := fun e => h.1 e.symm
    simp [mapSet, h1, ih h.2]

theorem mapGet_map {β γ : Type} (f : β → γ) (m : List (String × β)) (k : String) :
    mapGet (m.map (fun kv => (kv.1, f kv.2))) k = (mapGet m k).map f := by
  induction m with
  | nil => rfl
  | cons a m ih =>
    obtain ⟨a1, a2⟩ := a
    by_cases h : a1 = k <;> simp [mapGet, h, ih]

theorem foldl_mapSet_nodup (f : List String → String) (h : List (String × List String))
    (acc : List (String × String)) (hnd : (acc.map Prod.fst ++ h.map Prod.fst).Nodup) :
    h.foldl (fun respHeaders kv => mapSet respHeaders kv.1 (f kv.2)) acc =
      acc ++ h.map (fun kv => (kv.1, f kv.2)) := by
  induction h generalizing acc with
  | nil => simp
  | cons a h ih =>
    have hfresh : a.1 ∉ acc.map Prod.fst := by
      intro hm
      have := List.nodup_append.mp hnd
      exact this.2.2 hm (by simp)
    simp only [List.foldl, mapSet_fresh acc a.1 (f a.2) hfresh]
    rw [ih]
    · simp
    · simpa [List.map_append, List.append_assoc] using hnd

/-- On a header map (no name twice), the loop of lines 77-80 joins the
values of every header and keeps the names and their order. -/
theorem flattenHeaders_eq_map (h : List (String × List String))
    (hnd : (h.map Prod.fst).Nodup) :
    flattenHeaders h = h.map (fun kv => (kv.1, Join kv.2 ", ")) := by
  unfold flattenHeaders
  rw [foldl_mapSet_nodup (fun vs => Join vs ", ") h [] (by simpa using hnd)]
  simp

theorem intercalate_go_eq_foldl (sep : String) (l : List String) (acc : String) :
    String.intercalate.go acc sep l = l.foldl (fun b s => b ++ sep ++ s) acc := by
  induction l generalizing acc with
  | nil => rfl
  | cons a l ih => simp [String.intercalate.go, ih]

/-- Go `strings.Join` is the concatenation with the separator between
consecutive elements. -/
theorem Join_eq_intercalate (elems : List String) (sep : String) :
    Join elems sep = sep.intercalate elems := by
  cases elems with
  | nil => rfl
  | cons e rest =>
    cases rest with
    | nil => rfl
    | cons e2 rest => simp [Join, String.intercalate, intercalate_go_eq_foldl]

theorem collectOutcome_ok (env : Env) (q : Request) (R : Response)
    (h : collectOutcome env q = Except.ok R) :
    ∃ resp body, env.clientDo q = Except.ok resp ∧ resp.Body = Except.ok body ∧
      R = { StatusCode := resp.StatusCode, ContentLength := resp.ContentLength,
            ResponseBody := body, ResponseHeaders := flattenHeaders resp.Header } := by
  unfold collectOutcome at h
  cases hc : env.clientDo q with
  | error err => simp [hc] at h
  | ok resp =>
    cases hb : resp.Body with
    | error err => simp [hc, hb] at h
    | ok body =>
      simp [hc, hb] at h
      exact ⟨resp, body, rfl, hb, h.symm⟩

/-- A call that returns has handed exactly one request to the client, and
what it returns is the client's answer to that request, collected. -/
theorem Call.returned (env : Env) (debug : Bool) (url : String) (c : Call) (R : Response)
    (h : (c.send env debug url).outcome = Except.ok R) :
    ∃ q resp body, (c.send env debug url).sent = [q] ∧ env.clientDo q = Except.ok resp ∧
      resp.Body = Except.ok body ∧
      R = { StatusCode := resp.StatusCode, ContentLength := resp.ContentLength,
            ResponseBody := body, ResponseHeaders := flattenHeaders resp.Header } := by
  obtain ⟨a, b, _, _⟩ := Call.send_spec env debug url c
  rw [a] at h
  cases hf : c.final env url with
  | error e => simp [hf] at h
  | ok q =>
    simp only [hf] at h b
    obtain ⟨resp, body, h1, h2, h3⟩ := collectOutcome_ok env q R h
    exact ⟨q, resp, body, b, h1, h2, h3⟩

/-- C3. For each of the three calls: when the call returns a `Response`, it
has handed one request to the client, and for the header map of the client's
answer (a Go map, no name twice) the `ResponseHeaders` of the `Response` has
the same names, and under each name the values of that header joined in
order with `", "`; a single value is returned unchanged and no value gives
the empty string. -/
theorem response_headers_joined (env : Env) (debug : Bool) (url : String) (c : Call)
    (R : Response)
    (hmap : ∀ q resp, env.clientDo q = Except.ok resp → (resp.Header.map Prod.fst).Nodup)
    (hret : (c.send env debug url).outcome = Except.ok R) :
    ∃ q resp, (c.send env debug url).sent = [q] ∧ env.clientDo q = Except.ok resp ∧
      R.ResponseHeaders.map Prod.fst = resp.Header.map Prod.fst ∧
      (∀ name, mapGet R.ResponseHeaders name =
        (mapGet resp.Header name).map (fun values => ", ".intercalate values)) ∧
      (∀ name value, mapGet resp.Header name = some [value] →
        mapGet R.ResponseHeaders name = some value) ∧
      (∀ name, mapGet resp.Header name = some [] →
        mapGet R.ResponseHeaders name = some "") := by
  obtain ⟨q, resp, body, hs, hc, _, hR⟩ := Call.returned env debug url c R hret
  have hflat := flattenHeaders_eq_map resp.Header (hmap q resp hc)
  have hget : ∀ name, mapGet R.ResponseHeaders name =
      (mapGet resp.Header name).map (fun values => ", ".intercalate values) := by
    intro name
    rw [hR]
    simp only [hflat]
    rw [mapGet_map (fun vs => Join vs ", ") resp.Header name]
    congr 1
    funext vs
    exact Join_eq_intercalate vs ", "
  refine ⟨q, resp, hs, hc, ?_, hget, ?_, ?_⟩
  · rw [hR]
    simp [hflat, List.map_map, Function.comp_def]
  · intro name value hv
    rw [hget name, hv]
    rfl
  · intro name hv
    rw [hget name, hv]
    rfl

theorem response_headers_joined_witness :
    (∀ q resp, sampleEnv.clientDo q = Except.ok resp → (resp.Header.map Prod.fst).Nodup) ∧
    ((Call.get ⟨"user", "pass"⟩).send sampleEnv false "http://example.com").outcome =
      Except.ok ⟨200, 2, "ok", [("Set-Cookie", "a=1, b=2"), ("Server", "go"), ("X-Empty", "")]⟩ ∧
    ∃ q resp, ((Call.get ⟨"user", "pass"⟩).send sampleEnv false "http://example.com").sent = [q] ∧
      sampleEnv.clientDo q = Except.ok resp ∧
      List.map Prod.fst [("Set-Cookie", "a=1, b=2"), ("Server", "go"), ("X-Empty", "")] =
        resp.Header.map Prod.fst ∧
      (∀ name, mapGet [("Set-Cookie", "a=1, b=2"), ("Server", "go"), ("X-Empty", "")] name =
        (mapGet resp.Header name).map (fun values => ", ".intercalate values)) ∧
      (∀ name value, mapGet resp.Header name = some [value] →
        mapGet [("Set-Cookie", "a=1, b=2"), ("Server", "go"), ("X-Empty", "")] name =
          some value) ∧
      (∀ name, mapGet resp.Header name = some [] →
        mapGet [("Set-Cookie", "a=1, b=2"), ("Server", "go"), ("X-Empty", "")] name =
          some "") :=
  have hmap : ∀ q resp, sampleEnv.clientDo q = Except.ok resp →
      (resp.Header.map Prod.fst).Nodup := by
    intro q resp h
    simp only [sampleEnv, Except.ok.injEq] at h
    subst h
    decide
  ⟨hmap, rfl,
    response_headers_joined sampleEnv false "http://example.com" (Call.get ⟨"user", "pass"⟩)
      ⟨200, 2, "ok", [("Set-Cookie", "a=1, b=2"), ("Server", "go"), ("X-Empty", "")]⟩ hmap rfl⟩

/-- C5. For every POST options value whose `ContentType` is none of `none`,
`multipart`, `form`, `json`, `xml`, the call ends in the fatal termination
with the message `Invalid POST request mode`: it returns no `Response`,
constructs no request, hands nothing to the client and writes no output. -/
theorem invalid_mode_is_fatal (env : Env) (debug : Bool) (url : String) (p : PostRequest)
    (h : p.ContentType ≠ "none" ∧ p.ContentType ≠ "multipart" ∧ p.ContentType ≠ "form" ∧
      p.ContentType ≠ "json" ∧ p.ContentType ≠ "xml") :
    (SendPostRequest env debug url p).outcome =
        Except.error (Abort.fatal
          ["[-] Failed to create HTTP request: Invalid POST request mode - " ++
            p.ContentType]) ∧
    (SendPostRequest env debug url p).created = [] ∧
    (SendPostRequest env debug url p).sent = [] ∧
    (SendPostRequest env debug url p).output = [] := by
  have hb := modeCheck_bad p h
  obtain ⟨h5, h1, h2, h3, h4⟩ := h
  simp [SendPostRequest, hb, multipartBlock_skip env url p _ h1, formBlock_skip env url p _ h2,
    jsonBlock_skip env debug url p _ h3, xmlBlock_skip env debug url p _ h4,
    noneBlock_skip env url p _ h5, Exec.created, Exec.sent, Exec.output]

theorem invalid_mode_is_fatal_witness :
    (zeroPost.ContentType ≠ "none" ∧ zeroPost.ContentType ≠ "multipart" ∧
      zeroPost.ContentType ≠ "form" ∧ zeroPost.ContentType ≠ "json" ∧
      zeroPost.ContentType ≠ "xml") ∧
    (SendPostRequest sampleEnv true "http://example.com" zeroPost).outcome =
        Except.error (Abort.fatal
          ["[-] Failed to create HTTP request: Invalid POST request mode - "]) ∧
    (SendPostRequest sampleEnv true "http://example.com" zeroPost).created = [] ∧
    (SendPostRequest sampleEnv true "http://example.com" zeroPost).sent = [] ∧
    (SendPostRequest sampleEnv true "http://example.com" zeroPost).output = [] :=
  ⟨by decide, invalid_mode_is_fatal sampleEnv true "http://example.com" zeroPost (by decide)⟩

/-! ## The multipart body -/

theorem multipartStep_readable (env : Env) (w : Writer) (entry : String × String)
    (h : entryReadable env entry = true) :
    multipartStep env w entry =
      Except.ok { w := w.w ++ encodePart w.boundary (!w.lastpart) (partOf env entry),
                  boundary := w.boundary, lastpart := true } := by
  unfold entryReadable at h
  unfold multipartStep partOf
  by_cases hp : HasPrefix entry.2 "@" = true
  · simp only [hp, if_true] at h ⊢
    cases ho : osOpen env (sliceFrom1 entry.2) with
    | error err => simp [ho] at h
    | ok file =>
      simp only [ho] at h
      have hr : file.readErr = none := by
        cases hre : file.readErr with
        | none => rfl
        | some e => simp [hre] at h
      cases hl : w.lastpart <;>
        simp only [ioCopy, hr, Writer.partWrite, Writer.CreateFormFile, Writer.CreatePart,
          encodePart, Part.headerLines, hl, List.foldl, Except.ok.injEq, Writer.mk.injEq,
          and_true, Bool.not_true, Bool.not_false, if_true, Bool.false_eq_true, if_false] <;>
        apply String.ext <;>
        simp [String.data_append, List.append_assoc]
  · simp only [hp]
    cases hl : w.lastpart <;>
      simp only [Writer.WriteField, Writer.partWrite, Writer.CreateFormField, Writer.CreatePart,
        encodePart, Part.headerLines, hl, List.foldl, Except.ok.injEq, Writer.mk.injEq,
        and_true, Bool.not_true, Bool.not_false, if_true, Bool.false_eq_true, if_false] <;>
      apply String.ext <;>
      simp [String.data_append, List.append_assoc]

theorem multipartStep_unreadable (env : Env) (w : Writer) (entry : String × String)
    (h : entryReadable env entry = false) :
    ∃ ops, multipartStep env w entry = Except.error (Abort.fatal ops) := by
  unfold entryReadable at h
  unfold multipartStep
  by_cases hp : HasPrefix entry.2 "@" = true
  · simp only [hp, if_true] at h ⊢
    cases ho : osOpen env (sliceFrom1 entry.2) with
    | error err => exact ⟨_, rfl⟩
    | ok file =>
      simp only [ho] at h
      cases hre : file.readErr with
      | none => simp [hre] at h
      | some e => exact ⟨["Error writing file to part: ", e], by simp [ioCopy, hre]⟩
  · simp [hp] at h

theorem foldlM_multipartStep_readable (env : Env) (form : List (String × String)) (w : Writer)
    (h : form.all (entryReadable env) = true) :
    form.foldlM (multipartStep env) w =
      Except.ok { w := w.w ++ encodeParts w.boundary (!w.lastpart) (form.map (partOf env)),
                  boundary := w.boundary, lastpart := w.lastpart || !form.isEmpty } := by
  induction form generalizing w with
  | nil =>
    cases w
    simp [encodeParts, pure, Except.pure]
  | cons e form ih =>
    simp only [List.all_cons, Bool.and_eq_true] at h
    simp only [List.foldlM, multipartStep_readable env w e h.1, bind, Except.bind]
    rw [ih _ h.2]
    simp [encodeParts, String.append_assoc]

theorem foldlM_multipartStep_unreadable (env : Env) (form : List (String × String))
    (w : Writer) (h : form.all (entryReadable env) = false) :
    ∃ ops, form.foldlM (multipartStep env) w = Except.error (Abort.fatal ops) := by
  induction form generalizing w with
  | nil => simp at h
  | cons e form ih =>
    by_cases he : entryReadable env e = true
    · have hrest : form.all (entryReadable env) = false := by
        simpa [List.all_cons, he] using h
      simp only [List.foldlM, multipartStep_readable env w e he, bind, Except.bind]
      exact ih _ hrest
    · have he2 : entryReadable env e = false := by simpa using he
      obtain ⟨ops, hops⟩ := multipartStep_unreadable env w e he2
      exact ⟨ops, by simp [List.foldlM, hops, bind, Except.bind]⟩

/-- `CreateMultipartFormData` in closed form when every referenced file opens
and is read: the parts of the entries, in the order of the loop, and no
closing delimiter. -/
theorem CreateMultipartFormData_readable (env : Env) (form : List (String × String))
    (h : form.all (entryReadable env) = true) :
    CreateMultipartFormData env form =
      Except.ok (encodeParts (randomBoundary env) true (form.map (partOf env)),
        { w := encodeParts (randomBoundary env) true (form.map (partOf env)),
          boundary := randomBoundary env, lastpart := !form.isEmpty }) := by
  have hf := foldlM_multipartStep_readable env form (NewWriter env) h
  simp only [CreateMultipartFormData, bind, Except.bind, hf, pure, Except.pure]
  simp [NewWriter]

theorem CreateMultipartFormData_unreadable (env : Env) (form : List (String × String))
    (h : form.all (entryReadable env) = false) :
    ∃ ops, CreateMultipartFormData env form = Except.error (Abort.fatal ops) := by
  obtain ⟨ops, hops⟩ := foldlM_multipartStep_unreadable env form (NewWriter env) h
  exact ⟨ops, by simp [CreateMultipartFormData, hops, bind, Except.bind]⟩

/-- C6 (amended). For every field mapping: when every referenced file opens
and is read to its end without an error, `CreateMultipartFormData` returns
the buffer that holds exactly one part per entry, in the order of the loop:
an entry whose value starts with `@` is a file part with the key as field
name, the value without its first character as file name (`@@a` names the
file `@a`) and the content of that file; any other entry (the empty value
too) is a plain field with the key as name and the value as content.  When
some referenced file does not open or cannot be read, the call ends in a
fatal termination and returns no body; the value `@` alone names the empty
path, which does not open. -/
theorem multipart_one_part_per_entry (env : Env) (form : List (String × String)) :
    (form.all (entryReadable env) = true →
      CreateMultipartFormData env form =
        Except.ok (encodeParts (randomBoundary env) true (form.map (partOf env)),
          { w := encodeParts (randomBoundary env) true (form.map (partOf env)),
            boundary := randomBoundary env, lastpart := !form.isEmpty }) ∧
      (form.map (partOf env)).length = form.length ∧
      ∀ entry ∈ form,
        (HasPrefix entry.2 "@" = true →
          ∃ file, osOpen env (sliceFrom1 entry.2) = Except.ok file ∧ file.readErr = none ∧
            partOf env entry =
              { name := entry.1, filename := some (sliceFrom1 entry.2),
                content := file.content }) ∧
        (HasPrefix entry.2 "@" = false →
          partOf env entry = { name := entry.1, filename := none, content := entry.2 })) ∧
    (form.all (entryReadable env) = false →
      ∃ ops, CreateMultipartFormData env form = Except.error (Abort.fatal ops)) ∧
    (∀ key, CreateMultipartFormData env [(key, "@")] =
      Except.error (Abort.fatal
        ["Error while opening file : ", "open : no such file or directory"])) ∧
    (∀ key, (partOf env (key, "@@a")).filename = some "@a") := by
  refine ⟨?_, CreateMultipartFormData_unreadable env form, ?_, ?_⟩
  · intro h
    refine ⟨CreateMultipartFormData_readable env form h, by simp, ?_⟩
    intro entry he
    have hr : entryReadable env entry = true := (List.all_eq_true.mp h) entry he
    constructor
    · intro hp
      unfold entryReadable at hr
      simp only [hp, if_true] at hr
      cases ho : osOpen env (sliceFrom1 entry.2) with
      | error err => simp [ho] at hr
      | ok file =>
        simp only [ho] at hr
        have hre : file.readErr = none := by
          cases hre : file.readErr with
          | none => rfl
          | some e => simp [hre] at hr
        exact ⟨file, rfl, hre, by simp [partOf, hp, ho]⟩
    · intro hp
      simp [partOf, hp]
  · intro key
    rfl
  · intro key
    rfl

theorem multipart_one_part_per_entry_witness :
    sampleForm.all (entryReadable sampleEnv) = true ∧
    CreateMultipartFormData sampleEnv sampleForm =
      Except.ok (encodeParts (randomBoundary sampleEnv) true
          [⟨"upload", some "a.txt", "hello"⟩, ⟨"note", none, "hi"⟩, ⟨"empty", none, ""⟩],
        { w := encodeParts (randomBoundary sampleEnv) true
            [⟨"upload", some "a.txt", "hello"⟩, ⟨"note", none, "hi"⟩, ⟨"empty", none, ""⟩],
          boundary := randomBoundary sampleEnv, lastpart := true }) :=
  ⟨by decide, ((multipart_one_part_per_entry sampleEnv sampleForm).1 (by decide)).1⟩

/-- C6, as stated, fails: the path `dir` opens, but reading it fails, and the
call ends in the fatal termination of line 129 instead of emitting a part. -/
theorem multipart_open_is_not_enough :
    [("upload", "@dir")].all (entryOpens sampleEnv) = true ∧
    CreateMultipartFormData sampleEnv [("upload", "@dir")] =
      Except.error (Abort.fatal ["Error writing file to part: ", "read dir: is a directory"]) :=
  ⟨by decide, rfl⟩

/-- Closing the writer is what appends the closing delimiter; neither
`CreateMultipartFormData` nor `SendPostRequest` closes it. -/
theorem Writer.Close_w (w : Writer) : w.Close.w = w.w ++ closingDelimiter w.boundary := rfl

/-- C9 (the code at the failing input). For the mapping with the one plain
field `a = b`, the buffer that `CreateMultipartFormData` returns, which is
the body that `SendPostRequest` hands to the client under the boundary of its
`Content-Type` header, ends with the content of the field: the closing
boundary delimiter is missing, because the writer is never closed. -/
theorem multipart_body_not_closed :
    (CreateMultipartFormData sampleEnv [("a", "b")]).map Prod.fst =
      Except.ok ("--" ++ randomBoundary sampleEnv ++ "\r\n" ++
        "Content-Disposition: form-data; name=" ++ dquote ++ "a" ++ dquote ++ "\r\n" ++
        "\r\n" ++ "b") ∧
    (SendPostRequest sampleEnv false "http://example.com"
        { zeroPost with ContentType := "multipart", MultipartData := [("a", "b")] }).sent =
      [{ Method := "POST", URL := "http://example.com",
         Header := [("Content-Type",
           ["multipart/form-data; boundary=" ++ randomBoundary sampleEnv])],
         Body := "--" ++ randomBoundary sampleEnv ++ "\r\n" ++
           "Content-Disposition: form-data; name=" ++ dquote ++ "a" ++ dquote ++ "\r\n" ++
           "\r\n" ++ "b" }] ∧
    HasSuffix ("--" ++ randomBoundary sampleEnv ++ "\r\n" ++
        "Content-Disposition: form-data; name=" ++ dquote ++ "a" ++ dquote ++ "\r\n" ++
        "\r\n" ++ "b") (closingDelimiter (randomBoundary sampleEnv)) = false :=
  ⟨rfl, by decide, by decide⟩

/-! ## The header of the request -/

theorem Values_Add (h : Header) (key value name : String) :
    (h.Add key value).Values name =
      if CanonicalMIMEHeaderKey key = CanonicalMIMEHeaderKey name
      then h.Values name ++ [value] else h.Values name := by
  unfold Header.Values Header.Add
  by_cases hk : CanonicalMIMEHeaderKey key = CanonicalMIMEHeaderKey name
  · simp only [hk, if_true, mapGet_mapSet_same]
    rfl
  · simp only [hk, if_false]
    rw [mapGet_mapSet_other _ _ _ _ hk]

theorem Values_Set (h : Header) (key value name : String) :
    (h.Set key value).Values name =
      if CanonicalMIMEHeaderKey key = CanonicalMIMEHeaderKey name
      then [value] else h.Values name := by
  unfold Header.Values Header.Set
  by_cases hk : CanonicalMIMEHeaderKey key = CanonicalMIMEHeaderKey name
  · simp only [hk, if_true, mapGet_mapSet_same]
    rfl
  · simp only [hk, if_false]
    rw [mapGet_mapSet_other _ _ _ _ hk]

theorem addHeaders_spec (hs : List (String × String)) (r : Request) :
    (addHeaders r hs).Method = r.Method ∧ (addHeaders r hs).URL = r.URL ∧
    (addHeaders r hs).Body = r.Body ∧
    ∀ name, (addHeaders r hs).Header.Values name =
      r.Header.Values name ++ headerValuesFor name hs := by
  induction hs generalizing r with
  | nil => simp [addHeaders, headerValuesFor]
  | cons kv hs ih =>
    obtain ⟨a, b, c, d⟩ := ih { r with Header := r.Header.Add kv.1 kv.2 }
    refine ⟨a, b, c, ?_⟩
    intro name
    have hd := d name
    simp only [addHeaders, List.foldl] at hd ⊢
    rw [hd, Values_Add]
    by_cases hk : CanonicalMIMEHeaderKey kv.1 = CanonicalMIMEHeaderKey name
    · have hb : (CanonicalMIMEHeaderKey kv.1 == CanonicalMIMEHeaderKey name) = true := by
        simpa using hk
      simp [headerValuesFor, List.filter_cons, hb, hk]
    · have hb : (CanonicalMIMEHeaderKey kv.1 == CanonicalMIMEHeaderKey name) = false := by
        simpa using hk
      simp [headerValuesFor, List.filter_cons, hb, hk]

theorem canonical_Cookie : CanonicalMIMEHeaderKey "Cookie" = "Cookie" := by decide

theorem canonical_ContentType : CanonicalMIMEHeaderKey "Content-Type" = "Content-Type" := by
  decide

theorem canonical_Authorization : CanonicalMIMEHeaderKey "Authorization" = "Authorization" := by
  decide

theorem AddCookie_spec (env : Env) (r : Request) (c : Cookie) :
    (r.AddCookie env c).Method = r.Method ∧ (r.AddCookie env c).URL = r.URL ∧
    (r.AddCookie env c).Body = r.Body ∧
    ∀ name, CanonicalMIMEHeaderKey name ≠ "Cookie" →
      (r.AddCookie env c).Header.Values name = r.Header.Values name := by
  unfold Request.AddCookie
  by_cases h : r.Header.Get "Cookie" = ""
  · simp only [h, ne_eq, not_true_eq_false, if_false, true_and]
    intro name hn
    rw [Values_Set, canonical_Cookie, if_neg (fun e => hn e.symm)]
  · simp only [h, ne_eq, not_false_eq_true, if_true, true_and]
    intro name hn
    rw [Values_Set, canonical_Cookie, if_neg (fun e => hn e.symm)]

theorem addCookies_spec (env : Env) (cs : List (Option Cookie)) (r q : Request)
    (h : addCookies env r cs = some q) :
    q.Method = r.Method ∧ q.URL = r.URL ∧ q.Body = r.Body ∧
    ∀ name, CanonicalMIMEHeaderKey name ≠ "Cookie" →
      q.Header.Values name = r.Header.Values name := by
  induction cs generalizing r with
  | nil =>
    simp only [addCookies, Option.some.injEq] at h
    subst h
    simp
  | cons c cs ih =>
    cases c with
    | none => simp [addCookies] at h
    | some c =>
      simp only [addCookies] at h
      obtain ⟨a, b, d, e⟩ := ih _ h
      obtain ⟨a1, b1, d1, e1⟩ := AddCookie_spec env r c
      refine ⟨a.trans a1, b.trans b1, d.trans d1, ?_⟩
      intro name hn
      rw [e name hn, e1 name hn]

theorem withAuth_spec (r : Request) (user pass : String) :
    (withAuth r user pass).Method = r.Method ∧ (withAuth r user pass).URL = r.URL ∧
    (withAuth r user pass).Body = r.Body ∧
    ∀ name, (withAuth r user pass).Header.Values name =
      if user ≠ "" ∧ CanonicalMIMEHeaderKey name = "Authorization"
      then ["Basic " ++ basicAuth user pass] else r.Header.Values name := by
  unfold withAuth
  by_cases h : user = ""
  · simp [h]
  · simp only [ne_eq, h, not_false_eq_true, if_true, Request.SetBasicAuth, true_and]
    intro name
    rw [Values_Set, canonical_Authorization]
    by_cases hn : CanonicalMIMEHeaderKey name = "Authorization"
    · simp [hn]
    · simp only [hn, and_false, if_false]
      rw [if_neg (fun e => hn e.symm)]

theorem lowerHex_mem (n : Nat) : lowerHex n ∈ "0123456789abcdef".data := by
  unfold lowerHex
  have h : n % 16 < 16 := Nat.mod_lt n (by decide)
  generalize n % 16 = m at h
  interval_cases m <;> decide

/-- A random boundary holds hexadecimal digits only, so
`FormDataContentType` does not quote it. -/
theorem FormDataContentType_random (env : Env) (w : Writer)
    (h : w.boundary = randomBoundary env) :
    w.FormDataContentType = "multipart/form-data; boundary=" ++ randomBoundary env := by
  have hno : ContainsAny (randomBoundary env)
      ("()<>@,;:" ++ backslash ++ dquote ++ "/[]?= ") = false := by
    unfold ContainsAny randomBoundary sprintfHex
    rw [List.any_eq_false]
    intro c hc
    simp only [List.mem_flatMap, List.mem_map, List.mem_range] at hc
    obtain ⟨b, _, hb⟩ := hc
    have hmem : c ∈ "0123456789abcdef".data := by
      simp only [List.mem_cons, List.mem_singleton, List.not_mem_nil, or_false] at hb
      rcases hb with hb | hb <;> rw [hb] <;> exact lowerHex_mem _
    have hall : ∀ d ∈ "0123456789abcdef".data,
        ¬ (("()<>@,;:" ++ backslash ++ dquote ++ "/[]?= ").data.contains d = true) := by
      decide
    exact hall c hmem
  unfold Writer.FormDataContentType
  simp [h, hno]

theorem CreateMultipartFormData_boundary (env : Env) (form : List (String × String))
    (bw : String × Writer) (h : CreateMultipartFormData env form = Except.ok bw) :
    bw.2.boundary = randomBoundary env ∧ bw.2.w = bw.1 := by
  by_cases hr : form.all (entryReadable env) = true
  · rw [CreateMultipartFormData_readable env form hr] at h
    simp only [Except.ok.injEq] at h
    subst h
    exact ⟨rfl, rfl⟩
  · have hr2 : form.all (entryReadable env) = false := by simpa using hr
    obtain ⟨ops, hops⟩ := CreateMultipartFormData_unreadable env form hr2
    rw [hops] at h
    cases h

/-- The request that leaves the discriminator blocks: its method, URL, body
and header. -/
theorem postBuilt_spec (env : Env) (url : String) (p : PostRequest) (r : Request)
    (h : postBuilt env url p = Except.ok r) :
    urlParse env url = none ∧
    r.Method = MethodPost ∧ r.URL = url ∧ r.Body = referenceBody env p ∧
    (p.ContentType = "none" ∨ p.ContentType = "multipart" ∨ p.ContentType = "form" ∨
      p.ContentType = "json" ∨ p.ContentType = "xml") ∧
    (p.ContentType = "none" → r.Header = []) ∧
    (p.ContentType ≠ "none" →
      r.Header = Header.Add [] "Content-Type" (expectedContentType env p)) := by
  unfold postBuilt at h
  by_cases h1 : p.ContentType = "multipart"
  · simp only [h1, if_true] at h
    cases hm : CreateMultipartFormData env p.MultipartData with
    | error e => simp [hm] at h
    | ok bw =>
      cases hu : urlParse env url with
      | some err => simp [hm, hu] at h
      | none =>
        simp only [hm, hu, Except.ok.injEq] at h
        subst h
        have hb := (CreateMultipartFormData_boundary env _ bw hm).1
        simp [postWith, referenceBody, expectedContentType, h1, hm,
          FormDataContentType_random env bw.2 hb]
  by_cases h2 : p.ContentType = "form"
  · cases hu : urlParse env url with
    | some err => simp [h2, hu] at h
    | none =>
      simp only [h2, hu] at h
      simp at h
      subst h
      simp [postWith, referenceBody, expectedContentType, h2]
  by_cases h3 : p.ContentType = "json"
  · cases hu : urlParse env url with
    | some err => simp [h3, hu] at h
    | none =>
      simp only [h3, hu] at h
      simp at h
      subst h
      simp [postWith, referenceBody, expectedContentType, h3]
  by_cases h4 : p.ContentType = "xml"
  · cases hu : urlParse env url with
    | some err => simp [h4, hu] at h
    | none =>
      simp only [h4, hu] at h
      simp at h
      subst h
      simp [postWith, referenceBody, expectedContentType, h4]
  by_cases h5 : p.ContentType = "none"
  · cases hu : urlParse env url with
    | some err => simp [h5, hu] at h
    | none =>
      simp only [h5, hu] at h
      simp at h
      subst h
      simp [referenceBody, h5]
  simp [h1, h2, h3, h4, h5] at h

/-- The request that a POST call hands to the client, in terms of the
request that left the discriminator blocks. -/
theorem post_sent_spec (env : Env) (debug : Bool) (url : String) (p : PostRequest)
    (q : Request) (h : q ∈ (SendPostRequest env debug url p).sent) :
    ∃ r, postBuilt env url p = Except.ok r ∧
      (SendPostRequest env debug url p).sent = [q] ∧
      q.Method = r.Method ∧ q.URL = r.URL ∧ q.Body = r.Body ∧
      ∀ name, CanonicalMIMEHeaderKey name ≠ "Cookie" →
        q.Header.Values name =
          (if p.AuthUser ≠ "" ∧ CanonicalMIMEHeaderKey name = "Authorization"
           then ["Basic " ++ basicAuth p.AuthUser p.AuthPass] else r.Header.Values name) ++
          headerValuesFor name p.Headers := by
  obtain ⟨_, hs, _, _⟩ := SendPostRequest_spec env debug url p
  unfold Exec.sent at h ⊢
  rw [hs] at h ⊢
  unfold postFinal at h ⊢
  cases hb : postBuilt env url p with
  | error e => simp [hb] at h
  | ok r =>
    simp only [hb] at h ⊢
    cases hc : addCookies env (addHeaders (withAuth r p.AuthUser p.AuthPass) p.Headers)
        p.Cookies with
    | none => simp [hc] at h
    | some q2 =>
      simp only [hc, List.mem_singleton] at h ⊢
      subst h
      obtain ⟨c1, c2, c3, c4⟩ := addCookies_spec env _ _ _ hc
      obtain ⟨a1, a2, a3, a4⟩ := addHeaders_spec p.Headers (withAuth r p.AuthUser p.AuthPass)
      obtain ⟨w1, w2, w3, w4⟩ := withAuth_spec r p.AuthUser p.AuthPass
      refine ⟨r, rfl, rfl, c1.trans (a1.trans w1), c2.trans (a2.trans w2),
        c3.trans (a3.trans w3), ?_⟩
      intro name hn
      rw [c4 name hn, a4 name, w4 name]

theorem headerValuesFor_eq_nil (name : String) (hs : List (String × String))
    (h : ∀ kv ∈ hs, CanonicalMIMEHeaderKey kv.1 ≠ CanonicalMIMEHeaderKey name) :
    headerValuesFor name hs = [] := by
  unfold headerValuesFor
  rw [List.map_eq_nil_iff, List.filter_eq_nil_iff]
  intro kv hkv
  simpa using h kv hkv

theorem HasPrefix_append (p s : String) : HasPrefix (p ++ s) p = true := by
  unfold HasPrefix
  rw [List.isPrefixOf_iff_prefix, String.data_append]
  exact List.prefix_append _ _

/-- C1 (amended). For every POST options value whose `ContentType` is `form`,
`json`, `xml` or `multipart`, the `Content-Type` header of the request handed
to the client starts with the expected value for the discriminator
(`multipart/form-data; boundary=` and the writer's boundary for `multipart`),
followed by the values of the entries of `Headers` whose key canonicalises to
`Content-Type`, in the order of the loop; it is exactly the expected value
when `Headers` has no such entry, and `Header.Get` returns the expected
value in every case. -/
theorem content_type_header (env : Env) (debug : Bool) (url : String) (p : PostRequest)
    (q : Request)
    (hct : p.ContentType = "form" ∨ p.ContentType = "json" ∨ p.ContentType = "xml" ∨
      p.ContentType = "multipart")
    (hq : q ∈ (SendPostRequest env debug url p).sent) :
    q.Header.Values "Content-Type" =
      expectedContentType env p :: headerValuesFor "Content-Type" p.Headers ∧
    ((∀ kv ∈ p.Headers, CanonicalMIMEHeaderKey kv.1 ≠ "Content-Type") →
      q.Header.Values "Content-Type" = [expectedContentType env p]) ∧
    q.Header.Get "Content-Type" = expectedContentType env p := by
  obtain ⟨r, hb, _, _, _, _, hv⟩ := post_sent_spec env debug url p q hq
  obtain ⟨_, _, _, _, _, _, hh⟩ := postBuilt_spec env url p r hb
  have hne : p.ContentType ≠ "none" := by
    rcases hct with h | h | h | h <;> rw [h] <;> decide
  have hval : q.Header.Values "Content-Type" =
      expectedContentType env p :: headerValuesFor "Content-Type" p.Headers := by
    rw [hv "Content-Type" (by decide), hh hne, Values_Add]
    simp [canonical_ContentType, Header.Values, mapGet]
  refine ⟨hval, ?_, ?_⟩
  · intro hno
    rw [hval, headerValuesFor_eq_nil "Content-Type" p.Headers
      (by rw [canonical_ContentType]; exact hno)]
  · unfold Header.Get
    rw [hval]
    rfl

theorem content_type_header_witness :
    (samplePost.ContentType = "form" ∨ samplePost.ContentType = "json" ∨
      samplePost.ContentType = "xml" ∨ samplePost.ContentType = "multipart") ∧
    samplePostSent ∈ (SendPostRequest sampleEnv true "http://example.com" samplePost).sent ∧
    samplePostSent.Header.Values "Content-Type" = ["application/json"] :=
  ⟨by decide, by decide,
    ((content_type_header sampleEnv true "http://example.com" samplePost samplePostSent
      (by decide) (by decide)).2.1 (by decide))⟩

/-- C1, as stated, fails: a `Headers` entry under `Content-Type` is added to
the request as a second `Content-Type` value. -/
theorem content_type_second_value :
    (SendPostRequest sampleEnv false "http://example.com" postWithContentTypeHeader).sent.map
        (fun q => q.Header.Values "Content-Type") =
      [["application/json", "text/plain"]] := by
  decide

/-- What a call hands to the client, when it hands anything: one request,
whose `Authorization` values are the basic-auth value of a non-empty
`AuthUser` followed by the values that `Headers` puts under that name. -/
theorem Call.sent_authorization (env : Env) (debug : Bool) (url : String) (c : Call)
    (q : Request) (hq : q ∈ (c.send env debug url).sent) :
    q.Header.Values "Authorization" =
      (if c.AuthUser ≠ "" then ["Basic " ++ basicAuth c.AuthUser c.AuthPass] else []) ++
        headerValuesFor "Authorization" c.Headers := by
  cases c with
  | post o =>
    obtain ⟨r, hb, _, _, _, _, hv⟩ := post_sent_spec env debug url o q hq
    obtain ⟨_, _, _, _, _, hnone, hsome⟩ := postBuilt_spec env url o r hb
    rw [hv "Authorization" (by decide)]
    simp only [Call.AuthUser, Call.AuthPass, Call.Headers, canonical_Authorization, and_true]
    by_cases hu : o.AuthUser = ""
    · have hr : r.Header.Values "Authorization" = [] := by
        by_cases hn : o.ContentType = "none"
        · rw [hnone hn]
          rfl
        · rw [hsome hn, Values_Add, if_neg (by decide)]
          rfl
      simp [hu, hr]
    · simp [hu]
  | get o =>
    obtain ⟨_, hs, _, _⟩ := Call.send_spec env debug url (Call.get o)
    rw [hs] at hq
    simp only [Call.final] at hq
    cases hu : urlParse env url with
    | some err => simp [hu] at hq
    | none =>
      simp only [hu, List.mem_singleton] at hq
      subst hq
      rw [(withAuth_spec _ _ _).2.2.2 "Authorization"]
      simp [Call.AuthUser, Call.AuthPass, Call.Headers, canonical_Authorization,
        headerValuesFor, Header.Values, mapGet]
  | delete o =>
    obtain ⟨_, hs, _, _⟩ := Call.send_spec env debug url (Call.delete o)
    rw [hs] at hq
    simp only [Call.final] at hq
    cases hu : urlParse env url with
    | some err => simp [hu] at hq
    | none =>
      simp only [hu, List.mem_singleton] at hq
      subst hq
      rw [(withAuth_spec _ _ _).2.2.2 "Authorization"]
      simp [Call.AuthUser, Call.AuthPass, Call.Headers, canonical_Authorization,
        headerValuesFor, Header.Values, mapGet]

theorem base64Value_digit_lt : ∀ n, n < 64 → base64Value (base64Digit n) = n ∧
    base64Digit n ≠ '=' := by
  decide

theorem base64Value_digit (n : Nat) :
    base64Value (base64Digit n) = n % 64 ∧ base64Digit n ≠ '=' := by
  have h := base64Value_digit_lt (n % 64) (Nat.mod_lt n (by decide))
  have e : base64Digit (n % 64) = base64Digit n := by
    unfold base64Digit
    rw [Nat.mod_mod]
  rw [e] at h
  exact h

/-- Decoding undoes `base64Encode` on bytes. -/
theorem base64Decode_encode : ∀ (bs : List Nat), (∀ b ∈ bs, b < 256) →
    base64Decode (base64Encode bs) = bs
  | [], _ => rfl
  | [a], h => by
    have ha : a < 256 := h a (by simp)
    simp only [base64Encode, base64Decode, if_true]
    rw [(base64Value_digit _).1, (base64Value_digit _).1]
    congr 1
    omega
  | [a, b], h => by
    have ha : a < 256 := h a (by simp)
    have hb : b < 256 := h b (by simp)
    simp only [base64Encode, base64Decode, if_true, (base64Value_digit _).2, if_false]
    rw [(base64Value_digit _).1, (base64Value_digit _).1, (base64Value_digit _).1]
    congr 1
    · omega
    · congr 1
      omega
  | a :: b :: c :: rest, h => by
    have ha : a < 256 := h a (by simp)
    have hb : b < 256 := h b (by simp)
    have hc : c < 256 := h c (by simp)
    have hr : ∀ x ∈ rest, x < 256 := fun x hx => h x (by simp [hx])
    simp only [base64Encode, base64Decode, (base64Value_digit _).2, if_false]
    rw [(base64Value_digit _).1, (base64Value_digit _).1, (base64Value_digit _).1,
      (base64Value_digit _).1, base64Decode_encode rest hr]
    congr 1
    · omega
    · congr 1
      · omega
      · congr 1
        omega

/-- The value of `basicAuth` decodes to the user name, a colon and the
password. -/
theorem basicAuth_decodes (username password : String) :
    base64Decode (basicAuth username password).data =
      (username ++ ":" ++ password).data.map byteOf := by
  unfold basicAuth
  apply base64Decode_encode
  intro b hb
  simp only [List.mem_map] at hb
  obtain ⟨c, _, hc⟩ := hb
  rw [← hc]
  exact Nat.mod_lt _ (by decide)

/-- C4 (amended). For each of the three calls, when `AuthUser` is non-empty
the request handed to the client carries the basic-auth `Authorization`
header of `AuthUser` and `AuthPass`: its first `Authorization` value, the one
`Header.Get` returns, is `Basic ` followed by the base64 text that decodes to
`AuthUser`, a colon and `AuthPass`, and the values that `Headers` puts under
`Authorization` follow it; when `AuthUser` is empty the `Authorization`
values are those of `Headers` alone.  When no entry of `Headers` has a key
that canonicalises to `Authorization` (a GET and a DELETE have no `Headers`),
the request carries a basic-auth `Authorization` header if and only if
`AuthUser` is non-empty, that header is then its only `Authorization` value,
and an empty `AuthUser` with a non-empty `AuthPass` yields no `Authorization`
header at all. -/
theorem basic_auth_iff_user (env : Env) (debug : Bool) (url : String) (c : Call)
    (q : Request) (hq : q ∈ (c.send env debug url).sent) :
    (c.AuthUser ≠ "" →
      q.Header.Values "Authorization" =
        ("Basic " ++ basicAuth c.AuthUser c.AuthPass) ::
          headerValuesFor "Authorization" c.Headers ∧
      q.Header.Get "Authorization" = "Basic " ++ basicAuth c.AuthUser c.AuthPass ∧
      base64Decode (basicAuth c.AuthUser c.AuthPass).data =
        (c.AuthUser ++ ":" ++ c.AuthPass).data.map byteOf ∧
      hasBasicAuth q = true) ∧
    (c.AuthUser = "" →
      q.Header.Values "Authorization" = headerValuesFor "Authorization" c.Headers) ∧
    ((∀ kv ∈ c.Headers, CanonicalMIMEHeaderKey kv.1 ≠ "Authorization") →
      (hasBasicAuth q = true ↔ c.AuthUser ≠ "") ∧
      (c.AuthUser ≠ "" →
        q.Header.Values "Authorization" = ["Basic " ++ basicAuth c.AuthUser c.AuthPass]) ∧
      (c.AuthUser = "" → q.Header.Values "Authorization" = [])) := by
  have hv := Call.sent_authorization env debug url c q hq
  refine ⟨?_, ?_, ?_⟩
  · intro hu
    have hval : q.Header.Values "Authorization" =
        ("Basic " ++ basicAuth c.AuthUser c.AuthPass) ::
          headerValuesFor "Authorization" c.Headers := by
      rw [hv]
      simp [hu]
    refine ⟨hval, ?_, basicAuth_decodes c.AuthUser c.AuthPass, ?_⟩
    · unfold Header.Get
      rw [hval]
      rfl
    · unfold hasBasicAuth
      rw [hval]
      simp [HasPrefix_append]
  · intro hu
    rw [hv]
    simp [hu]
  · intro hno
    have hnil := headerValuesFor_eq_nil "Authorization" c.Headers
      (by rw [canonical_Authorization]; exact hno)
    rw [hnil, List.append_nil] at hv
    refine ⟨?_, ?_, ?_⟩
    · unfold hasBasicAuth
      rw [hv]
      by_cases hu : c.AuthUser = ""
      · simp [hu]
      · simp [hu, HasPrefix_append]
    · intro hu
      rw [hv]
      simp [hu]
    · intro hu
      rw [hv]
      simp [hu]

theorem basic_auth_iff_user_witness :
    samplePostSent ∈ ((Call.post samplePost).send sampleEnv true "http://example.com").sent ∧
    (Call.post samplePost).AuthUser ≠ "" ∧
    samplePostSent.Header.Values "Authorization" = ["Basic dTpw"] ∧
    samplePostSent.Header.Get "Authorization" = "Basic dTpw" ∧
    base64Decode "dTpw".data = "u:p".data.map byteOf ∧
    hasBasicAuth samplePostSent = true :=
  ⟨by decide, by decide,
    (basic_auth_iff_user sampleEnv true "http://example.com" (Call.post samplePost)
      samplePostSent (by decide)).1 (by decide)⟩

/-- C4, as stated, fails for a POST: with an empty `AuthUser` (and a
non-empty `AuthPass`), a `Headers` entry under `Authorization` puts a
basic-auth `Authorization` header on the request handed to the client. -/
theorem authorization_from_headers :
    postWithAuthorizationHeader.AuthUser = "" ∧
    (SendPostRequest sampleEnv false "http://example.com"
        postWithAuthorizationHeader).sent.map hasBasicAuth = [true] := by
  decide

/-! ## The body of the request -/

/-- The discriminator and the payload it selects determine the request that
leaves the discriminator blocks. -/
theorem postBuilt_samePayload (env : Env) (url : String) (p p2 : PostRequest)
    (h : samePayload p p2) : postBuilt env url p2 = postBuilt env url p := by
  obtain ⟨hc, hf, hj, hx, hm⟩ := h
  unfold postBuilt
  rw [hc]
  by_cases h1 : p.ContentType = "multipart"
  · simp [h1, hm h1]
  by_cases h2 : p.ContentType = "form"
  · simp [h2, hf h2]
  by_cases h3 : p.ContentType = "json"
  · simp [h3, hj h3]
  by_cases h4 : p.ContentType = "xml"
  · simp [h4, hx h4]
  simp [h1, h2, h3, h4]

theorem referenceBody_samePayload (env : Env) (p p2 : PostRequest) (h : samePayload p p2) :
    referenceBody env p2 = referenceBody env p := by
  obtain ⟨hc, hf, hj, hx, hm⟩ := h
  unfold referenceBody
  rw [hc]
  by_cases h1 : p.ContentType = "multipart"
  · simp [h1, hm h1]
  by_cases h2 : p.ContentType = "form"
  · simp [h2, hf h2]
  by_cases h3 : p.ContentType = "json"
  · simp [h3, hj h3]
  by_cases h4 : p.ContentType = "xml"
  · simp [h4, hx h4]
  simp [h1, h2, h3, h4]

theorem postBuilt_ok (env : Env) (url : String) (p : PostRequest)
    (hu : urlParse env url = none)
    (hct : p.ContentType = "none" ∨ p.ContentType = "multipart" ∨ p.ContentType = "form" ∨
      p.ContentType = "json" ∨ p.ContentType = "xml")
    (hm : p.ContentType = "multipart" → p.MultipartData.all (entryReadable env) = true) :
    ∃ r, postBuilt env url p = Except.ok r := by
  unfold postBuilt
  rcases hct with h | h | h | h | h
  · simp [h, hu]
  · simp [h, hu, CreateMultipartFormData_readable env p.MultipartData (hm h)]
  · simp [h, hu]
  · simp [h, hu]
  · simp [h, hu]

/-- C2. For every POST options value and URL: every request that
`SendPostRequest` constructs, and every request it hands to the client, is a
POST to the URL whose body is the reference encoding for the discriminator
(`FormData.Encode()` for `form`, `JsonData` for `json`, `XmlData` for `xml`,
the buffer of `CreateMultipartFormData(MultipartData)` for `multipart`,
empty for `none`); when request construction succeeds (the URL parses, the
discriminator is one of the five, the files of a multipart mapping are
readable) exactly this one request is constructed; and two options values
that agree on the discriminator and on the payload it selects construct the
same request, whatever their other payload fields hold. -/
theorem post_body_is_reference (env : Env) (debug : Bool) (url : String) (p : PostRequest) :
    (∀ r ∈ (SendPostRequest env debug url p).created,
      r = { Method := "POST", URL := url, Header := [], Body := referenceBody env p }) ∧
    (∀ q ∈ (SendPostRequest env debug url p).sent,
      q.Method = "POST" ∧ q.URL = url ∧ q.Body = referenceBody env p) ∧
    (urlParse env url = none →
      (p.ContentType = "none" ∨ p.ContentType = "multipart" ∨ p.ContentType = "form" ∨
        p.ContentType = "json" ∨ p.ContentType = "xml") →
      (p.ContentType = "multipart" → p.MultipartData.all (entryReadable env) = true) →
      (SendPostRequest env debug url p).created =
        [{ Method := "POST", URL := url, Header := [], Body := referenceBody env p }]) ∧
    (∀ p2, samePayload p p2 →
      (SendPostRequest env debug url p2).created = (SendPostRequest env debug url p).created ∧
      referenceBody env p2 = referenceBody env p) := by
  have hcr : ∀ o : PostRequest, (SendPostRequest env debug url o).created =
      (match postBuilt env url o with
       | .error _ => []
       | .ok r => [{ r with Header := [] }]) :=
    fun o => (SendPostRequest_spec env debug url o).2.2.1
  refine ⟨?_, ?_, ?_, ?_⟩
  · intro r hr
    rw [hcr p] at hr
    cases hb : postBuilt env url p with
    | error e => simp [hb] at hr
    | ok r0 =>
      obtain ⟨_, a, b, c, _⟩ := postBuilt_spec env url p r0 hb
      simp only [hb, List.mem_singleton] at hr
      rw [hr, a, b, c]
      rfl
  · intro q hq
    obtain ⟨r, hb, _, a, b, c, _⟩ := post_sent_spec env debug url p q hq
    obtain ⟨_, a0, b0, c0, _⟩ := postBuilt_spec env url p r hb
    exact ⟨a.trans a0, b.trans b0, c.trans c0⟩
  · intro hu hct hm
    obtain ⟨r0, hb⟩ := postBuilt_ok env url p hu hct hm
    obtain ⟨_, a, b, c, _⟩ := postBuilt_spec env url p r0 hb
    rw [hcr p]
    simp only [hb]
    rw [a, b, c]
    rfl
  · intro p2 hs
    refine ⟨?_, referenceBody_samePayload env p p2 hs⟩
    rw [hcr p2, hcr p, postBuilt_samePayload env url p p2 hs]

theorem post_body_is_reference_witness :
    urlParse sampleEnv "http://example.com" = none ∧
    (SendPostRequest sampleEnv true "http://example.com" samplePost).created =
      [{ Method := "POST", URL := "http://example.com", Header := [], Body := "[1]" }] ∧
    samePayload samplePost { samplePost with XmlData := "<b/>", FormData := [("k", ["v"])] } :=
  ⟨by decide,
    (post_body_is_reference sampleEnv true "http://example.com" samplePost).2.2.1 (by decide)
      (by decide) (by decide),
    ⟨rfl, by decide, fun _ => rfl, by decide, fun _ => rfl⟩⟩

/-! ## A rejected URL -/

/-- What a call does with a URL that the request constructor rejects: GET,
DELETE and the POST block `none` look at the error first and end in the
fatal termination; the POST blocks `form`, `json`, `xml` and `multipart` use
the absent request first and end in a nil dereference.  In no case is a
request constructed or handed to the client. -/
theorem rejected_url_outcome (env : Env) (debug : Bool) (url : String) (c : Call)
    (err : String) (hu : urlParse env url = some err) :
    (c.send env debug url).created = [] ∧ (c.send env debug url).sent = [] ∧
    (match c with
     | .post o =>
       (o.ContentType = "none" →
         (c.send env debug url).outcome =
           Except.error (Abort.fatal ["[-] Failed to create HTTP request: ", err])) ∧
       (o.ContentType = "form" ∨ o.ContentType = "json" ∨ o.ContentType = "xml" →
         (c.send env debug url).outcome = Except.error Abort.nilDereference) ∧
       (o.ContentType = "multipart" → o.MultipartData.all (entryReadable env) = true →
         (c.send env debug url).outcome = Except.error Abort.nilDereference)
     | _ =>
       (c.send env debug url).outcome =
         Except.error (Abort.fatal ["[-] Failed to create HTTP request: ", err])) := by
  obtain ⟨ho, hs, hc, _⟩ := Call.send_spec env debug url c
  cases c with
  | get o =>
    simp only [Call.final, Call.constructed, hu] at ho hs hc
    exact ⟨hc, hs, ho⟩
  | delete o =>
    simp only [Call.final, Call.constructed, hu] at ho hs hc
    exact ⟨hc, hs, ho⟩
  | post o =>
    have hb : ∀ r, postBuilt env url o ≠ Except.ok r := by
      intro r hr
      have := (postBuilt_spec env url o r hr).1
      rw [hu] at this
      cases this
    simp only [Call.final, Call.constructed] at ho hs hc
    refine ⟨?_, ?_, ?_, ?_, ?_⟩
    · rw [hc]
      cases hp : postBuilt env url o with
      | error e => rfl
      | ok r => exact absurd hp (hb r)
    · rw [hs]
      unfold postFinal
      cases hp : postBuilt env url o with
      | error e => rfl
      | ok r => exact absurd hp (hb r)
    · intro h
      rw [ho]
      simp [postFinal, postBuilt, h, hu]
    · intro h
      rw [ho]
      rcases h with h | h | h <;> simp [postFinal, postBuilt, h, hu]
    · intro h hm
      rw [ho]
      simp [postFinal, postBuilt, h, hu, CreateMultipartFormData_readable env _ hm]

/-- C7 (the code at the failing input). For a URL that the request
constructor rejects, GET, DELETE and POST with `none` end in the fatal
termination `Failed to create HTTP request`, but POST with `form`, `json`,
`xml` or `multipart` ends in a nil dereference: the header is added through
the absent request before the error is looked at. -/
theorem rejected_url_post_nil_dereference :
    urlParse sampleEnv rejectedURL = some "net/url: invalid control character in URL" ∧
    (SendPostRequest sampleEnv false rejectedURL { zeroPost with ContentType := "form" }).outcome =
      Except.error Abort.nilDereference ∧
    (SendPostRequest sampleEnv false rejectedURL { zeroPost with ContentType := "json" }).outcome =
      Except.error Abort.nilDereference ∧
    (SendPostRequest sampleEnv false rejectedURL { zeroPost with ContentType := "xml" }).outcome =
      Except.error Abort.nilDereference ∧
    (SendPostRequest sampleEnv false rejectedURL
        { zeroPost with ContentType := "multipart" }).outcome =
      Except.error Abort.nilDereference ∧
    (SendPostRequest sampleEnv false rejectedURL { zeroPost with ContentType := "none" }).outcome =
      Except.error (Abort.fatal ["[-] Failed to create HTTP request: ",
        "net/url: invalid control character in URL"]) ∧
    (SendGetRequest sampleEnv false rejectedURL ⟨"", ""⟩).outcome =
      Except.error (Abort.fatal ["[-] Failed to create HTTP request: ",
        "net/url: invalid control character in URL"]) ∧
    (SendDeleteRequest sampleEnv false rejectedURL ⟨"", ""⟩).outcome =
      Except.error (Abort.fatal ["[-] Failed to create HTTP request: ",
        "net/url: invalid control character in URL"]) :=
  ⟨by decide, rfl, rfl, rfl, rfl, rfl, rfl, rfl⟩

/-! ## The transport -/

/-- C8 (amended). For every value of `HTTP_PROXY`, the transport built at
initialisation has TLS certificate verification disabled and compression
disabled; the transports for any two values differ in the proxy setting
only; an empty `HTTP_PROXY` leaves the proxy unset, and a non-empty
`HTTP_PROXY` that `url.Parse` accepts configures that value as the upstream
proxy. -/
theorem transport_configuration (env : Env) :
    (initTransport env).InsecureSkipVerify = true ∧
    (initTransport env).DisableCompression = true ∧
    (∀ env2, { initTransport env2 with Proxy := (initTransport env).Proxy } =
      initTransport env) ∧
    (env.HTTP_PROXY = "" → (initTransport env).Proxy = none) ∧
    (env.HTTP_PROXY ≠ "" → urlParse env env.HTTP_PROXY = none →
      (initTransport env).Proxy = some (some env.HTTP_PROXY) ∧
      (initTransport env).upstream = some env.HTTP_PROXY) := by
  have h2 : ∀ e : Env, (initTransport e).InsecureSkipVerify = true ∧
      (initTransport e).DisableCompression = true := by
    intro e
    unfold initTransport
    by_cases h : e.HTTP_PROXY = "" <;> simp [h]
  refine ⟨(h2 env).1, (h2 env).2, ?_, ?_, ?_⟩
  · intro env2
    obtain ⟨a, b⟩ := h2 env
    obtain ⟨a2, b2⟩ := h2 env2
    cases ht : initTransport env
    cases ht2 : initTransport env2
    simp_all
  · intro h
    simp [initTransport, h]
  · intro h hp
    simp [initTransport, h, hp, Transport.upstream]

theorem transport_configuration_witness :
    proxyEnv.HTTP_PROXY ≠ "" ∧ urlParse proxyEnv proxyEnv.HTTP_PROXY = none ∧
    (initTransport proxyEnv).Proxy = some (some "http://10.0.0.1:3128") ∧
    (initTransport proxyEnv).upstream = some "http://10.0.0.1:3128" :=
  ⟨by decide, by decide,
    (transport_configuration proxyEnv).2.2.2.2 (by decide) (by decide)⟩

/-- C8, as stated, fails: a non-empty `HTTP_PROXY` that does not parse as a
URL is not configured as the upstream proxy; the error of `url.Parse` is
discarded and the transport connects directly. -/
theorem unparsable_proxy_is_dropped :
    unparsableProxyEnv.HTTP_PROXY ≠ "" ∧
    (initTransport unparsableProxyEnv).Proxy = some none ∧
    (initTransport unparsableProxyEnv).upstream = none := by
  decide

end Requestr
